import Mathlib

/-!
# Verification of the ftldat package library

A shallow embedding of the ftldat archive-container library.  Rust strings are
modelled as lists of Unicode code points (`List Nat`), byte buffers as lists of
byte values (`List Nat`), `u32`/`u16` arithmetic as `Nat` with explicit
`% 2^w` where the code casts or wraps, and fallible Rust functions as values of
`RResult`, whose `panic` constructor models a Rust panic (from `expect`,
out-of-bounds slicing or `Vec` indexing).
-/

set_option maxRecDepth 20000

namespace FtlDat

/-- Outcome of a Rust computation: `ok`, a returned `Err`, or a panic
(`expect` / out-of-bounds slice or `Vec` index).  Panic messages are not
modelled. -/
inductive RResult (ε α : Type) where
  | ok (a : α)
  | err (e : ε)
  | panic
deriving DecidableEq, Repr

namespace RResult

def map {ε α β : Type} (f : α → β) : RResult ε α → RResult ε β
  | .ok a => .ok (f a)
  | .err e => .err e
  | .panic => .panic

def mapErr {ε ε' α : Type} (f : ε → ε') : RResult ε α → RResult ε' α
  | .ok a => .ok a
  | .err e => .err (f e)
  | .panic => .panic

def bind {ε α β : Type} : RResult ε α → (α → RResult ε β) → RResult ε β
  | .ok a, f => f a
  | .err e, _ => .err e
  | .panic, _ => .panic

def isOk {ε α : Type} : RResult ε α → Bool
  | .ok _ => true
  | _ => false

end RResult

/-! ## Integer and byte helpers -/

/-- `u32::rotate_right(5)` on a 32-bit value held as a `Nat`:
`(h >> 5) | (h << 27)` reduced modulo `2^32`.  The two parts occupy disjoint
bit ranges, so the bitwise `or` is an addition. -/
def rotr32 (h : Nat) : Nat :=
  (h % 4294967296) / 32 + (h % 32) * 134217728

/-- The full Unicode lowercase mapping consulted by `str::to_lowercase`
(the `core::unicode::conversions::to_lower` table, Unicode 14.0): every
character whose lowercase mapping differs from itself, with its mapping.
U+0130 is the only multi-character lowercase mapping.  The table is split
into blocks of ascending code points so that each list literal, and each
lookup scan, stays short. -/
def lowercaseTable0 : List (Nat × List Nat) := [
  (65, [97]), (66, [98]), (67, [99]), (68, [100]), (69, [101]), (70, [102]),
  (71, [103]), (72, [104]), (73, [105]), (74, [106]), (75, [107]), (76, [108]),
  (77, [109]), (78, [110]), (79, [111]), (80, [112]), (81, [113]), (82, [114]),
  (83, [115]), (84, [116]), (85, [117]), (86, [118]), (87, [119]), (88, [120]),
  (89, [121]), (90, [122]), (192, [224]), (193, [225]), (194, [226]), (195, [227]),
  (196, [228]), (197, [229]), (198, [230]), (199, [231]), (200, [232]), (201, [233]),
  (202, [234]), (203, [235]), (204, [236]), (205, [237]), (206, [238]), (207, [239]),
  (208, [240]), (209, [241]), (210, [242]), (211, [243]), (212, [244]), (213, [245]),
  (214, [246]), (216, [248]), (217, [249]), (218, [250]), (219, [251]), (220, [252]),
  (221, [253]), (222, [254]), (256, [257]), (258, [259]), (260, [261]), (262, [263]),
  (264, [265]), (266, [267]), (268, [269]), (270, [271]), (272, [273]), (274, [275]),
  (276, [277]), (278, [279]), (280, [281]), (282, [283]), (284, [285]), (286, [287]),
  (288, [289]), (290, [291]), (292, [293]), (294, [295]), (296, [297]), (298, [299]),
  (300, [301]), (302, [303]), (304, [105, 775]), (306, [307]), (308, [309]), (310, [311]),
  (313, [314]), (315, [316]), (317, [318]), (319, [320]), (321, [322]), (323, [324]),
  (325, [326]), (327, [328]), (330, [331]), (332, [333]), (334, [335]), (336, [337]),
  (338, [339]), (340, [341]), (342, [343]), (344, [345]), (346, [347]), (348, [349]),
  (350, [351]), (352, [353]), (354, [355]), (356, [357]), (358, [359]), (360, [361]),
  (362, [363]), (364, [365]), (366, [367]), (368, [369]), (370, [371]), (372, [373]),
  (374, [375]), (376, [255]), (377, [378]), (379, [380]), (381, [382]), (385, [595])]

def lowercaseTable1 : List (Nat × List Nat) := [
  (386, [387]), (388, [389]), (390, [596]), (391, [392]), (393, [598]), (394, [599]),
  (395, [396]), (398, [477]), (399, [601]), (400, [603]), (401, [402]), (403, [608]),
  (404, [611]), (406, [617]), (407, [616]), (408, [409]), (412, [623]), (413, [626]),
  (415, [629]), (416, [417]), (418, [419]), (420, [421]), (422, [640]), (423, [424]),
  (425, [643]), (428, [429]), (430, [648]), (431, [432]), (433, [650]), (434, [651]),
  (435, [436]), (437, [438]), (439, [658]), (440, [441]), (444, [445]), (452, [454]),
  (453, [454]), (455, [457]), (456, [457]), (458, [460]), (459, [460]), (461, [462]),
  (463, [464]), (465, [466]), (467, [468]), (469, [470]), (471, [472]), (473, [474]),
  (475, [476]), (478, [479]), (480, [481]), (482, [483]), (484, [485]), (486, [487]),
  (488, [489]), (490, [491]), (492, [493]), (494, [495]), (497, [499]), (498, [499]),
  (500, [501]), (502, [405]), (503, [447]), (504, [505]), (506, [507]), (508, [509]),
  (510, [511]), (512, [513]), (514, [515]), (516, [517]), (518, [519]), (520, [521]),
  (522, [523]), (524, [525]), (526, [527]), (528, [529]), (530, [531]), (532, [533]),
  (534, [535]), (536, [537]), (538, [539]), (540, [541]), (542, [543]), (544, [414]),
  (546, [547]), (548, [549]), (550, [551]), (552, [553]), (554, [555]), (556, [557]),
  (558, [559]), (560, [561]), (562, [563]), (570, [11365]), (571, [572]), (573, [410]),
  (574, [11366]), (577, [578]), (579, [384]), (580, [649]), (581, [652]), (582, [583]),
  (584, [585]), (586, [587]), (588, [589]), (590, [591]), (880, [881]), (882, [883]),
  (886, [887]), (895, [1011]), (902, [940]), (904, [941]), (905, [942]), (906, [943]),
  (908, [972]), (910, [973]), (911, [974]), (913, [945]), (914, [946]), (915, [947])]

def lowercaseTable2 : List (Nat × List Nat) := [
  (916, [948]), (917, [949]), (918, [950]), (919, [951]), (920, [952]), (921, [953]),
  (922, [954]), (923, [955]), (924, [956]), (925, [957]), (926, [958]), (927, [959]),
  (928, [960]), (929, [961]), (931, [963]), (932, [964]), (933, [965]), (934, [966]),
  (935, [967]), (936, [968]), (937, [969]), (938, [970]), (939, [971]), (975, [983]),
  (984, [985]), (986, [987]), (988, [989]), (990, [991]), (992, [993]), (994, [995]),
  (996, [997]), (998, [999]), (1000, [1001]), (1002, [1003]), (1004, [1005]), (1006, [1007]),
  (1012, [952]), (1015, [1016]), (1017, [1010]), (1018, [1019]), (1021, [891]), (1022, [892]),
  (1023, [893]), (1024, [1104]), (1025, [1105]), (1026, [1106]), (1027, [1107]), (1028, [1108]),
  (1029, [1109]), (1030, [1110]), (1031, [1111]), (1032, [1112]), (1033, [1113]), (1034, [1114]),
  (1035, [1115]), (1036, [1116]), (1037, [1117]), (1038, [1118]), (1039, [1119]), (1040, [1072]),
  (1041, [1073]), (1042, [1074]), (1043, [1075]), (1044, [1076]), (1045, [1077]), (1046, [1078]),
  (1047, [1079]), (1048, [1080]), (1049, [1081]), (1050, [1082]), (1051, [1083]), (1052, [1084]),
  (1053, [1085]), (1054, [1086]), (1055, [1087]), (1056, [1088]), (1057, [1089]), (1058, [1090]),
  (1059, [1091]), (1060, [1092]), (1061, [1093]), (1062, [1094]), (1063, [1095]), (1064, [1096]),
  (1065, [1097]), (1066, [1098]), (1067, [1099]), (1068, [1100]), (1069, [1101]), (1070, [1102]),
  (1071, [1103]), (1120, [1121]), (1122, [1123]), (1124, [1125]), (1126, [1127]), (1128, [1129]),
  (1130, [1131]), (1132, [1133]), (1134, [1135]), (1136, [1137]), (1138, [1139]), (1140, [1141]),
  (1142, [1143]), (1144, [1145]), (1146, [1147]), (1148, [1149]), (1150, [1151]), (1152, [1153]),
  (1162, [1163]), (1164, [1165]), (1166, [1167]), (1168, [1169]), (1170, [1171]), (1172, [1173]),
  (1174, [1175]), (1176, [1177]), (1178, [1179]), (1180, [1181]), (1182, [1183]), (1184, [1185])]

def lowercaseTable3 : List (Nat × List Nat) := [
  (1186, [1187]), (1188, [1189]), (1190, [1191]), (1192, [1193]), (1194, [1195]), (1196, [1197]),
  (1198, [1199]), (1200, [1201]), (1202, [1203]), (1204, [1205]), (1206, [1207]), (1208, [1209]),
  (1210, [1211]), (1212, [1213]), (1214, [1215]), (1216, [1231]), (1217, [1218]), (1219, [1220]),
  (1221, [1222]), (1223, [1224]), (1225, [1226]), (1227, [1228]), (1229, [1230]), (1232, [1233]),
  (1234, [1235]), (1236, [1237]), (1238, [1239]), (1240, [1241]), (1242, [1243]), (1244, [1245]),
  (1246, [1247]), (1248, [1249]), (1250, [1251]), (1252, [1253]), (1254, [1255]), (1256, [1257]),
  (1258, [1259]), (1260, [1261]), (1262, [1263]), (1264, [1265]), (1266, [1267]), (1268, [1269]),
  (1270, [1271]), (1272, [1273]), (1274, [1275]), (1276, [1277]), (1278, [1279]), (1280, [1281]),
  (1282, [1283]), (1284, [1285]), (1286, [1287]), (1288, [1289]), (1290, [1291]), (1292, [1293]),
  (1294, [1295]), (1296, [1297]), (1298, [1299]), (1300, [1301]), (1302, [1303]), (1304, [1305]),
  (1306, [1307]), (1308, [1309]), (1310, [1311]), (1312, [1313]), (1314, [1315]), (1316, [1317]),
  (1318, [1319]), (1320, [1321]), (1322, [1323]), (1324, [1325]), (1326, [1327]), (1329, [1377]),
  (1330, [1378]), (1331, [1379]), (1332, [1380]), (1333, [1381]), (1334, [1382]), (1335, [1383]),
  (1336, [1384]), (1337, [1385]), (1338, [1386]), (1339, [1387]), (1340, [1388]), (1341, [1389]),
  (1342, [1390]), (1343, [1391]), (1344, [1392]), (1345, [1393]), (1346, [1394]), (1347, [1395]),
  (1348, [1396]), (1349, [1397]), (1350, [1398]), (1351, [1399]), (1352, [1400]), (1353, [1401]),
  (1354, [1402]), (1355, [1403]), (1356, [1404]), (1357, [1405]), (1358, [1406]), (1359, [1407]),
  (1360, [1408]), (1361, [1409]), (1362, [1410]), (1363, [1411]), (1364, [1412]), (1365, [1413]),
  (1366, [1414]), (4256, [11520]), (4257, [11521]), (4258, [11522]), (4259, [11523]), (4260, [11524]),
  (4261, [11525]), (4262, [11526]), (4263, [11527]), (4264, [11528]), (4265, [11529]), (4266, [11530])]

def lowercaseTable4 : List (Nat × List Nat) := [
  (4267, [11531]), (4268, [11532]), (4269, [11533]), (4270, [11534]), (4271, [11535]), (4272, [11536]),
  (4273, [11537]), (4274, [11538]), (4275, [11539]), (4276, [11540]), (4277, [11541]), (4278, [11542]),
  (4279, [11543]), (4280, [11544]), (4281, [11545]), (4282, [11546]), (4283, [11547]), (4284, [11548]),
  (4285, [11549]), (4286, [11550]), (4287, [11551]), (4288, [11552]), (4289, [11553]), (4290, [11554]),
  (4291, [11555]), (4292, [11556]), (4293, [11557]), (4295, [11559]), (4301, [11565]), (5024, [43888]),
  (5025, [43889]), (5026, [43890]), (5027, [43891]), (5028, [43892]), (5029, [43893]), (5030, [43894]),
  (5031, [43895]), (5032, [43896]), (5033, [43897]), (5034, [43898]), (5035, [43899]), (5036, [43900]),
  (5037, [43901]), (5038, [43902]), (5039, [43903]), (5040, [43904]), (5041, [43905]), (5042, [43906]),
  (5043, [43907]), (5044, [43908]), (5045, [43909]), (5046, [43910]), (5047, [43911]), (5048, [43912]),
  (5049, [43913]), (5050, [43914]), (5051, [43915]), (5052, [43916]), (5053, [43917]), (5054, [43918]),
  (5055, [43919]), (5056, [43920]), (5057, [43921]), (5058, [43922]), (5059, [43923]), (5060, [43924]),
  (5061, [43925]), (5062, [43926]), (5063, [43927]), (5064, [43928]), (5065, [43929]), (5066, [43930]),
  (5067, [43931]), (5068, [43932]), (5069, [43933]), (5070, [43934]), (5071, [43935]), (5072, [43936]),
  (5073, [43937]), (5074, [43938]), (5075, [43939]), (5076, [43940]), (5077, [43941]), (5078, [43942]),
  (5079, [43943]), (5080, [43944]), (5081, [43945]), (5082, [43946]), (5083, [43947]), (5084, [43948]),
  (5085, [43949]), (5086, [43950]), (5087, [43951]), (5088, [43952]), (5089, [43953]), (5090, [43954]),
  (5091, [43955]), (5092, [43956]), (5093, [43957]), (5094, [43958]), (5095, [43959]), (5096, [43960]),
  (5097, [43961]), (5098, [43962]), (5099, [43963]), (5100, [43964]), (5101, [43965]), (5102, [43966]),
  (5103, [43967]), (5104, [5112]), (5105, [5113]), (5106, [5114]), (5107, [5115]), (5108, [5116]),
  (5109, [5117]), (7312, [4304]), (7313, [4305]), (7314, [4306]), (7315, [4307]), (7316, [4308])]

def lowercaseTable5 : List (Nat × List Nat) := [
  (7317, [4309]), (7318, [4310]), (7319, [4311]), (7320, [4312]), (7321, [4313]), (7322, [4314]),
  (7323, [4315]), (7324, [4316]), (7325, [4317]), (7326, [4318]), (7327, [4319]), (7328, [4320]),
  (7329, [4321]), (7330, [4322]), (7331, [4323]), (7332, [4324]), (7333, [4325]), (7334, [4326]),
  (7335, [4327]), (7336, [4328]), (7337, [4329]), (7338, [4330]), (7339, [4331]), (7340, [4332]),
  (7341, [4333]), (7342, [4334]), (7343, [4335]), (7344, [4336]), (7345, [4337]), (7346, [4338]),
  (7347, [4339]), (7348, [4340]), (7349, [4341]), (7350, [4342]), (7351, [4343]), (7352, [4344]),
  (7353, [4345]), (7354, [4346]), (7357, [4349]), (7358, [4350]), (7359, [4351]), (7680, [7681]),
  (7682, [7683]), (7684, [7685]), (7686, [7687]), (7688, [7689]), (7690, [7691]), (7692, [7693]),
  (7694, [7695]), (7696, [7697]), (7698, [7699]), (7700, [7701]), (7702, [7703]), (7704, [7705]),
  (7706, [7707]), (7708, [7709]), (7710, [7711]), (7712, [7713]), (7714, [7715]), (7716, [7717]),
  (7718, [7719]), (7720, [7721]), (7722, [7723]), (7724, [7725]), (7726, [7727]), (7728, [7729]),
  (7730, [7731]), (7732, [7733]), (7734, [7735]), (7736, [7737]), (7738, [7739]), (7740, [7741]),
  (7742, [7743]), (7744, [7745]), (7746, [7747]), (7748, [7749]), (7750, [7751]), (7752, [7753]),
  (7754, [7755]), (7756, [7757]), (7758, [7759]), (7760, [7761]), (7762, [7763]), (7764, [7765]),
  (7766, [7767]), (7768, [7769]), (7770, [7771]), (7772, [7773]), (7774, [7775]), (7776, [7777]),
  (7778, [7779]), (7780, [7781]), (7782, [7783]), (7784, [7785]), (7786, [7787]), (7788, [7789]),
  (7790, [7791]), (7792, [7793]), (7794, [7795]), (7796, [7797]), (7798, [7799]), (7800, [7801]),
  (7802, [7803]), (7804, [7805]), (7806, [7807]), (7808, [7809]), (7810, [7811]), (7812, [7813]),
  (7814, [7815]), (7816, [7817]), (7818, [7819]), (7820, [7821]), (7822, [7823]), (7824, [7825]),
  (7826, [7827]), (7828, [7829]), (7838, [223]), (7840, [7841]), (7842, [7843]), (7844, [7845])]

def lowercaseTable6 : List (Nat × List Nat) := [
  (7846, [7847]), (7848, [7849]), (7850, [7851]), (7852, [7853]), (7854, [7855]), (7856, [7857]),
  (7858, [7859]), (7860, [7861]), (7862, [7863]), (7864, [7865]), (7866, [7867]), (7868, [7869]),
  (7870, [7871]), (7872, [7873]), (7874, [7875]), (7876, [7877]), (7878, [7879]), (7880, [7881]),
  (7882, [7883]), (7884, [7885]), (7886, [7887]), (7888, [7889]), (7890, [7891]), (7892, [7893]),
  (7894, [7895]), (7896, [7897]), (7898, [7899]), (7900, [7901]), (7902, [7903]), (7904, [7905]),
  (7906, [7907]), (7908, [7909]), (7910, [7911]), (7912, [7913]), (7914, [7915]), (7916, [7917]),
  (7918, [7919]), (7920, [7921]), (7922, [7923]), (7924, [7925]), (7926, [7927]), (7928, [7929]),
  (7930, [7931]), (7932, [7933]), (7934, [7935]), (7944, [7936]), (7945, [7937]), (7946, [7938]),
  (7947, [7939]), (7948, [7940]), (7949, [7941]), (7950, [7942]), (7951, [7943]), (7960, [7952]),
  (7961, [7953]), (7962, [7954]), (7963, [7955]), (7964, [7956]), (7965, [7957]), (7976, [7968]),
  (7977, [7969]), (7978, [7970]), (7979, [7971]), (7980, [7972]), (7981, [7973]), (7982, [7974]),
  (7983, [7975]), (7992, [7984]), (7993, [7985]), (7994, [7986]), (7995, [7987]), (7996, [7988]),
  (7997, [7989]), (7998, [7990]), (7999, [7991]), (8008, [8000]), (8009, [8001]), (8010, [8002]),
  (8011, [8003]), (8012, [8004]), (8013, [8005]), (8025, [8017]), (8027, [8019]), (8029, [8021]),
  (8031, [8023]), (8040, [8032]), (8041, [8033]), (8042, [8034]), (8043, [8035]), (8044, [8036]),
  (8045, [8037]), (8046, [8038]), (8047, [8039]), (8072, [8064]), (8073, [8065]), (8074, [8066]),
  (8075, [8067]), (8076, [8068]), (8077, [8069]), (8078, [8070]), (8079, [8071]), (8088, [8080]),
  (8089, [8081]), (8090, [8082]), (8091, [8083]), (8092, [8084]), (8093, [8085]), (8094, [8086]),
  (8095, [8087]), (8104, [8096]), (8105, [8097]), (8106, [8098]), (8107, [8099]), (8108, [8100]),
  (8109, [8101]), (8110, [8102]), (8111, [8103]), (8120, [8112]), (8121, [8113]), (8122, [8048])]

def lowercaseTable7 : List (Nat × List Nat) := [
  (8123, [8049]), (8124, [8115]), (8136, [8050]), (8137, [8051]), (8138, [8052]), (8139, [8053]),
  (8140, [8131]), (8152, [8144]), (8153, [8145]), (8154, [8054]), (8155, [8055]), (8168, [8160]),
  (8169, [8161]), (8170, [8058]), (8171, [8059]), (8172, [8165]), (8184, [8056]), (8185, [8057]),
  (8186, [8060]), (8187, [8061]), (8188, [8179]), (8486, [969]), (8490, [107]), (8491, [229]),
  (8498, [8526]), (8544, [8560]), (8545, [8561]), (8546, [8562]), (8547, [8563]), (8548, [8564]),
  (8549, [8565]), (8550, [8566]), (8551, [8567]), (8552, [8568]), (8553, [8569]), (8554, [8570]),
  (8555, [8571]), (8556, [8572]), (8557, [8573]), (8558, [8574]), (8559, [8575]), (8579, [8580]),
  (9398, [9424]), (9399, [9425]), (9400, [9426]), (9401, [9427]), (9402, [9428]), (9403, [9429]),
  (9404, [9430]), (9405, [9431]), (9406, [9432]), (9407, [9433]), (9408, [9434]), (9409, [9435]),
  (9410, [9436]), (9411, [9437]), (9412, [9438]), (9413, [9439]), (9414, [9440]), (9415, [9441]),
  (9416, [9442]), (9417, [9443]), (9418, [9444]), (9419, [9445]), (9420, [9446]), (9421, [9447]),
  (9422, [9448]), (9423, [9449]), (11264, [11312]), (11265, [11313]), (11266, [11314]), (11267, [11315]),
  (11268, [11316]), (11269, [11317]), (11270, [11318]), (11271, [11319]), (11272, [11320]), (11273, [11321]),
  (11274, [11322]), (11275, [11323]), (11276, [11324]), (11277, [11325]), (11278, [11326]), (11279, [11327]),
  (11280, [11328]), (11281, [11329]), (11282, [11330]), (11283, [11331]), (11284, [11332]), (11285, [11333]),
  (11286, [11334]), (11287, [11335]), (11288, [11336]), (11289, [11337]), (11290, [11338]), (11291, [11339]),
  (11292, [11340]), (11293, [11341]), (11294, [11342]), (11295, [11343]), (11296, [11344]), (11297, [11345]),
  (11298, [11346]), (11299, [11347]), (11300, [11348]), (11301, [11349]), (11302, [11350]), (11303, [11351]),
  (11304, [11352]), (11305, [11353]), (11306, [11354]), (11307, [11355]), (11308, [11356]), (11309, [11357]),
  (11310, [11358]), (11311, [11359]), (11360, [11361]), (11362, [619]), (11363, [7549]), (11364, [637])]

def lowercaseTable8 : List (Nat × List Nat) := [
  (11367, [11368]), (11369, [11370]), (11371, [11372]), (11373, [593]), (11374, [625]), (11375, [592]),
  (11376, [594]), (11378, [11379]), (11381, [11382]), (11390, [575]), (11391, [576]), (11392, [11393]),
  (11394, [11395]), (11396, [11397]), (11398, [11399]), (11400, [11401]), (11402, [11403]), (11404, [11405]),
  (11406, [11407]), (11408, [11409]), (11410, [11411]), (11412, [11413]), (11414, [11415]), (11416, [11417]),
  (11418, [11419]), (11420, [11421]), (11422, [11423]), (11424, [11425]), (11426, [11427]), (11428, [11429]),
  (11430, [11431]), (11432, [11433]), (11434, [11435]), (11436, [11437]), (11438, [11439]), (11440, [11441]),
  (11442, [11443]), (11444, [11445]), (11446, [11447]), (11448, [11449]), (11450, [11451]), (11452, [11453]),
  (11454, [11455]), (11456, [11457]), (11458, [11459]), (11460, [11461]), (11462, [11463]), (11464, [11465]),
  (11466, [11467]), (11468, [11469]), (11470, [11471]), (11472, [11473]), (11474, [11475]), (11476, [11477]),
  (11478, [11479]), (11480, [11481]), (11482, [11483]), (11484, [11485]), (11486, [11487]), (11488, [11489]),
  (11490, [11491]), (11499, [11500]), (11501, [11502]), (11506, [11507]), (42560, [42561]), (42562, [42563]),
  (42564, [42565]), (42566, [42567]), (42568, [42569]), (42570, [42571]), (42572, [42573]), (42574, [42575]),
  (42576, [42577]), (42578, [42579]), (42580, [42581]), (42582, [42583]), (42584, [42585]), (42586, [42587]),
  (42588, [42589]), (42590, [42591]), (42592, [42593]), (42594, [42595]), (42596, [42597]), (42598, [42599]),
  (42600, [42601]), (42602, [42603]), (42604, [42605]), (42624, [42625]), (42626, [42627]), (42628, [42629]),
  (42630, [42631]), (42632, [42633]), (42634, [42635]), (42636, [42637]), (42638, [42639]), (42640, [42641]),
  (42642, [42643]), (42644, [42645]), (42646, [42647]), (42648, [42649]), (42650, [42651]), (42786, [42787]),
  (42788, [42789]), (42790, [42791]), (42792, [42793]), (42794, [42795]), (42796, [42797]), (42798, [42799]),
  (42802, [42803]), (42804, [42805]), (42806, [42807]), (42808, [42809]), (42810, [42811]), (42812, [42813]),
  (42814, [42815]), (42816, [42817]), (42818, [42819]), (42820, [42821]), (42822, [42823]), (42824, [42825])]

def lowercaseTable9 : List (Nat × List Nat) := [
  (42826, [42827]), (42828, [42829]), (42830, [42831]), (42832, [42833]), (42834, [42835]), (42836, [42837]),
  (42838, [42839]), (42840, [42841]), (42842, [42843]), (42844, [42845]), (42846, [42847]), (42848, [42849]),
  (42850, [42851]), (42852, [42853]), (42854, [42855]), (42856, [42857]), (42858, [42859]), (42860, [42861]),
  (42862, [42863]), (42873, [42874]), (42875, [42876]), (42877, [7545]), (42878, [42879]), (42880, [42881]),
  (42882, [42883]), (42884, [42885]), (42886, [42887]), (42891, [42892]), (42893, [613]), (42896, [42897]),
  (42898, [42899]), (42902, [42903]), (42904, [42905]), (42906, [42907]), (42908, [42909]), (42910, [42911]),
  (42912, [42913]), (42914, [42915]), (42916, [42917]), (42918, [42919]), (42920, [42921]), (42922, [614]),
  (42923, [604]), (42924, [609]), (42925, [620]), (42926, [618]), (42928, [670]), (42929, [647]),
  (42930, [669]), (42931, [43859]), (42932, [42933]), (42934, [42935]), (42936, [42937]), (42938, [42939]),
  (42940, [42941]), (42942, [42943]), (42944, [42945]), (42946, [42947]), (42948, [42900]), (42949, [642]),
  (42950, [7566]), (42951, [42952]), (42953, [42954]), (42960, [42961]), (42966, [42967]), (42968, [42969]),
  (42997, [42998]), (65313, [65345]), (65314, [65346]), (65315, [65347]), (65316, [65348]), (65317, [65349]),
  (65318, [65350]), (65319, [65351]), (65320, [65352]), (65321, [65353]), (65322, [65354]), (65323, [65355]),
  (65324, [65356]), (65325, [65357]), (65326, [65358]), (65327, [65359]), (65328, [65360]), (65329, [65361]),
  (65330, [65362]), (65331, [65363]), (65332, [65364]), (65333, [65365]), (65334, [65366]), (65335, [65367]),
  (65336, [65368]), (65337, [65369]), (65338, [65370]), (66560, [66600]), (66561, [66601]), (66562, [66602]),
  (66563, [66603]), (66564, [66604]), (66565, [66605]), (66566, [66606]), (66567, [66607]), (66568, [66608]),
  (66569, [66609]), (66570, [66610]), (66571, [66611]), (66572, [66612]), (66573, [66613]), (66574, [66614]),
  (66575, [66615]), (66576, [66616]), (66577, [66617]), (66578, [66618]), (66579, [66619]), (66580, [66620]),
  (66581, [66621]), (66582, [66622]), (66583, [66623]), (66584, [66624]), (66585, [66625]), (66586, [66626])]

def lowercaseTable10 : List (Nat × List Nat) := [
  (66587, [66627]), (66588, [66628]), (66589, [66629]), (66590, [66630]), (66591, [66631]), (66592, [66632]),
  (66593, [66633]), (66594, [66634]), (66595, [66635]), (66596, [66636]), (66597, [66637]), (66598, [66638]),
  (66599, [66639]), (66736, [66776]), (66737, [66777]), (66738, [66778]), (66739, [66779]), (66740, [66780]),
  (66741, [66781]), (66742, [66782]), (66743, [66783]), (66744, [66784]), (66745, [66785]), (66746, [66786]),
  (66747, [66787]), (66748, [66788]), (66749, [66789]), (66750, [66790]), (66751, [66791]), (66752, [66792]),
  (66753, [66793]), (66754, [66794]), (66755, [66795]), (66756, [66796]), (66757, [66797]), (66758, [66798]),
  (66759, [66799]), (66760, [66800]), (66761, [66801]), (66762, [66802]), (66763, [66803]), (66764, [66804]),
  (66765, [66805]), (66766, [66806]), (66767, [66807]), (66768, [66808]), (66769, [66809]), (66770, [66810]),
  (66771, [66811]), (66928, [66967]), (66929, [66968]), (66930, [66969]), (66931, [66970]), (66932, [66971]),
  (66933, [66972]), (66934, [66973]), (66935, [66974]), (66936, [66975]), (66937, [66976]), (66938, [66977]),
  (66940, [66979]), (66941, [66980]), (66942, [66981]), (66943, [66982]), (66944, [66983]), (66945, [66984]),
  (66946, [66985]), (66947, [66986]), (66948, [66987]), (66949, [66988]), (66950, [66989]), (66951, [66990]),
  (66952, [66991]), (66953, [66992]), (66954, [66993]), (66956, [66995]), (66957, [66996]), (66958, [66997]),
  (66959, [66998]), (66960, [66999]), (66961, [67000]), (66962, [67001]), (66964, [67003]), (66965, [67004]),
  (68736, [68800]), (68737, [68801]), (68738, [68802]), (68739, [68803]), (68740, [68804]), (68741, [68805]),
  (68742, [68806]), (68743, [68807]), (68744, [68808]), (68745, [68809]), (68746, [68810]), (68747, [68811]),
  (68748, [68812]), (68749, [68813]), (68750, [68814]), (68751, [68815]), (68752, [68816]), (68753, [68817]),
  (68754, [68818]), (68755, [68819]), (68756, [68820]), (68757, [68821]), (68758, [68822]), (68759, [68823]),
  (68760, [68824]), (68761, [68825]), (68762, [68826]), (68763, [68827]), (68764, [68828]), (68765, [68829]),
  (68766, [68830]), (68767, [68831]), (68768, [68832]), (68769, [68833]), (68770, [68834]), (68771, [68835])]

def lowercaseTable11 : List (Nat × List Nat) := [
  (68772, [68836]), (68773, [68837]), (68774, [68838]), (68775, [68839]), (68776, [68840]), (68777, [68841]),
  (68778, [68842]), (68779, [68843]), (68780, [68844]), (68781, [68845]), (68782, [68846]), (68783, [68847]),
  (68784, [68848]), (68785, [68849]), (68786, [68850]), (71840, [71872]), (71841, [71873]), (71842, [71874]),
  (71843, [71875]), (71844, [71876]), (71845, [71877]), (71846, [71878]), (71847, [71879]), (71848, [71880]),
  (71849, [71881]), (71850, [71882]), (71851, [71883]), (71852, [71884]), (71853, [71885]), (71854, [71886]),
  (71855, [71887]), (71856, [71888]), (71857, [71889]), (71858, [71890]), (71859, [71891]), (71860, [71892]),
  (71861, [71893]), (71862, [71894]), (71863, [71895]), (71864, [71896]), (71865, [71897]), (71866, [71898]),
  (71867, [71899]), (71868, [71900]), (71869, [71901]), (71870, [71902]), (71871, [71903]), (93760, [93792]),
  (93761, [93793]), (93762, [93794]), (93763, [93795]), (93764, [93796]), (93765, [93797]), (93766, [93798]),
  (93767, [93799]), (93768, [93800]), (93769, [93801]), (93770, [93802]), (93771, [93803]), (93772, [93804]),
  (93773, [93805]), (93774, [93806]), (93775, [93807]), (93776, [93808]), (93777, [93809]), (93778, [93810]),
  (93779, [93811]), (93780, [93812]), (93781, [93813]), (93782, [93814]), (93783, [93815]), (93784, [93816]),
  (93785, [93817]), (93786, [93818]), (93787, [93819]), (93788, [93820]), (93789, [93821]), (93790, [93822]),
  (93791, [93823]), (125184, [125218]), (125185, [125219]), (125186, [125220]), (125187, [125221]), (125188, [125222]),
  (125189, [125223]), (125190, [125224]), (125191, [125225]), (125192, [125226]), (125193, [125227]), (125194, [125228]),
  (125195, [125229]), (125196, [125230]), (125197, [125231]), (125198, [125232]), (125199, [125233]), (125200, [125234]),
  (125201, [125235]), (125202, [125236]), (125203, [125237]), (125204, [125238]), (125205, [125239]), (125206, [125240]),
  (125207, [125241]), (125208, [125242]), (125209, [125243]), (125210, [125244]), (125211, [125245]), (125212, [125246]),
  (125213, [125247]), (125214, [125248]), (125215, [125249]), (125216, [125250]), (125217, [125251])]

/-- The block of the lowercase mapping that can hold `c`. -/
def lowercaseBlock (c : Nat) : List (Nat × List Nat) :=
  if c < 386 then lowercaseTable0
    else if c < 916 then lowercaseTable1
    else if c < 1186 then lowercaseTable2
    else if c < 4267 then lowercaseTable3
    else if c < 7317 then lowercaseTable4
    else if c < 7846 then lowercaseTable5
    else if c < 8123 then lowercaseTable6
    else if c < 11367 then lowercaseTable7
    else if c < 42826 then lowercaseTable8
    else if c < 66587 then lowercaseTable9
    else if c < 68772 then lowercaseTable10
    else lowercaseTable11

/-- One character's lowercase mapping: the table entry, or the character
itself when it has none. -/
def toLower (c : Nat) : List Nat :=
  match (lowercaseBlock c).lookup c with
  | some l => l
  | none => [c]

/-- The `Cased` property as the final-sigma rule consults it (Unicode 14.0),
as ranges of code points.  The rule queries `Cased` only at the first
character that is not case-ignorable, so characters carrying both properties
(the modifier letters) appear in the case-ignorable table below and not
here. -/
def casedRanges0 : List (Nat × Nat) := [
  (65, 90), (97, 122), (170, 170), (181, 181), (186, 186), (192, 214), (216, 246),
  (248, 442), (444, 447), (452, 659), (661, 687), (880, 883), (886, 887), (891, 893),
  (895, 895), (902, 902), (904, 906), (908, 908), (910, 929), (931, 1013), (1015, 1153),
  (1162, 1327), (1329, 1366), (1376, 1416), (4256, 4293), (4295, 4295), (4301, 4301), (4304, 4346),
  (4349, 4351), (5024, 5109), (5112, 5117), (7296, 7304), (7312, 7354), (7357, 7359), (7424, 7467),
  (7531, 7543), (7545, 7578), (7680, 7957), (7960, 7965), (7968, 8005), (8008, 8013), (8016, 8023),
  (8025, 8025), (8027, 8027), (8029, 8029), (8031, 8061), (8064, 8116), (8118, 8124), (8126, 8126),
  (8130, 8132), (8134, 8140), (8144, 8147), (8150, 8155), (8160, 8172), (8178, 8180), (8182, 8188),
  (8450, 8450), (8455, 8455), (8458, 8467), (8469, 8469), (8473, 8477), (8484, 8484), (8486, 8486),
  (8488, 8488), (8490, 8493), (8495, 8500), (8505, 8505), (8508, 8511), (8517, 8521), (8526, 8526),
  (8544, 8575), (8579, 8580), (9398, 9449), (11264, 11387), (11390, 11492), (11499, 11502), (11506, 11507),
  (11520, 11557), (11559, 11559), (11565, 11565), (42560, 42605), (42624, 42651), (42786, 42863), (42865, 42887),
  (42891, 42894), (42896, 42954), (42960, 42961), (42963, 42963), (42965, 42969), (42997, 42998), (43002, 43002),
  (43824, 43866), (43872, 43880), (43888, 43967), (64256, 64262), (64275, 64279), (65313, 65338), (65345, 65370),
  (66560, 66639), (66736, 66771), (66776, 66811), (66928, 66938), (66940, 66954), (66956, 66962), (66964, 66965),
  (66967, 66977), (66979, 66993), (66995, 67001), (67003, 67004), (68736, 68786)]

def casedRanges1 : List (Nat × Nat) := [
  (68800, 68850), (71840, 71903), (93760, 93823), (119808, 119892), (119894, 119964), (119966, 119967), (119970, 119970),
  (119973, 119974), (119977, 119980), (119982, 119993), (119995, 119995), (119997, 120003), (120005, 120069), (120071, 120074),
  (120077, 120084), (120086, 120092), (120094, 120121), (120123, 120126), (120128, 120132), (120134, 120134), (120138, 120144),
  (120146, 120485), (120488, 120512), (120514, 120538), (120540, 120570), (120572, 120596), (120598, 120628), (120630, 120654),
  (120656, 120686), (120688, 120712), (120714, 120744), (120746, 120770), (120772, 120779), (122624, 122633), (122635, 122654),
  (125184, 125251), (127280, 127305), (127312, 127337), (127344, 127369)]

def isCased (c : Nat) : Bool :=
  (if c < 68800 then casedRanges0 else casedRanges1).any fun r => Nat.ble r.1 c && Nat.ble c r.2

/-- The `Case_Ignorable` property (Unicode 14.0), as ranges of code points,
split into blocks like the tables above. -/
def caseIgnorableRanges0 : List (Nat × Nat) := [
  (39, 39), (46, 46), (58, 58), (94, 94), (96, 96), (168, 168), (173, 173),
  (175, 175), (180, 180), (183, 184), (688, 879), (884, 885), (890, 890), (900, 901),
  (903, 903), (1155, 1161), (1369, 1369), (1375, 1375), (1425, 1469), (1471, 1471), (1473, 1474),
  (1476, 1477), (1479, 1479), (1524, 1524), (1536, 1541), (1552, 1562), (1564, 1564), (1600, 1600),
  (1611, 1631), (1648, 1648), (1750, 1757), (1759, 1768), (1770, 1773), (1807, 1807), (1809, 1809),
  (1840, 1866), (1958, 1968), (2027, 2037), (2042, 2042), (2045, 2045), (2070, 2093), (2137, 2139),
  (2184, 2184), (2192, 2193), (2200, 2207), (2249, 2306), (2362, 2362), (2364, 2364), (2369, 2376),
  (2381, 2381), (2385, 2391), (2402, 2403), (2417, 2417), (2433, 2433), (2492, 2492), (2497, 2500),
  (2509, 2509), (2530, 2531), (2558, 2558), (2561, 2562), (2620, 2620), (2625, 2626), (2631, 2632),
  (2635, 2637), (2641, 2641), (2672, 2673), (2677, 2677), (2689, 2690), (2748, 2748), (2753, 2757),
  (2759, 2760), (2765, 2765), (2786, 2787), (2810, 2815), (2817, 2817), (2876, 2876), (2879, 2879),
  (2881, 2884), (2893, 2893), (2901, 2902), (2914, 2915), (2946, 2946), (3008, 3008), (3021, 3021),
  (3072, 3072), (3076, 3076), (3132, 3132), (3134, 3136), (3142, 3144), (3146, 3149), (3157, 3158),
  (3170, 3171), (3201, 3201), (3260, 3260), (3263, 3263), (3270, 3270), (3276, 3277), (3298, 3299),
  (3328, 3329), (3387, 3388), (3393, 3396), (3405, 3405), (3426, 3427), (3457, 3457), (3530, 3530),
  (3538, 3540), (3542, 3542), (3633, 3633), (3636, 3642), (3654, 3662)]

def caseIgnorableRanges1 : List (Nat × Nat) := [
  (3761, 3761), (3764, 3772), (3782, 3782), (3784, 3789), (3864, 3865), (3893, 3893), (3895, 3895),
  (3897, 3897), (3953, 3966), (3968, 3972), (3974, 3975), (3981, 3991), (3993, 4028), (4038, 4038),
  (4141, 4144), (4146, 4151), (4153, 4154), (4157, 4158), (4184, 4185), (4190, 4192), (4209, 4212),
  (4226, 4226), (4229, 4230), (4237, 4237), (4253, 4253), (4348, 4348), (4957, 4959), (5906, 5908),
  (5938, 5939), (5970, 5971), (6002, 6003), (6068, 6069), (6071, 6077), (6086, 6086), (6089, 6099),
  (6103, 6103), (6109, 6109), (6155, 6159), (6211, 6211), (6277, 6278), (6313, 6313), (6432, 6434),
  (6439, 6440), (6450, 6450), (6457, 6459), (6679, 6680), (6683, 6683), (6742, 6742), (6744, 6750),
  (6752, 6752), (6754, 6754), (6757, 6764), (6771, 6780), (6783, 6783), (6823, 6823), (6832, 6862),
  (6912, 6915), (6964, 6964), (6966, 6970), (6972, 6972), (6978, 6978), (7019, 7027), (7040, 7041),
  (7074, 7077), (7080, 7081), (7083, 7085), (7142, 7142), (7144, 7145), (7149, 7149), (7151, 7153),
  (7212, 7219), (7222, 7223), (7288, 7293), (7376, 7378), (7380, 7392), (7394, 7400), (7405, 7405),
  (7412, 7412), (7416, 7417), (7468, 7530), (7544, 7544), (7579, 7679), (8125, 8125), (8127, 8129),
  (8141, 8143), (8157, 8159), (8173, 8175), (8189, 8190), (8203, 8207), (8216, 8217), (8228, 8228),
  (8231, 8231), (8234, 8238), (8288, 8292), (8294, 8303), (8305, 8305), (8319, 8319), (8336, 8348),
  (8400, 8432), (11388, 11389), (11503, 11505), (11631, 11631), (11647, 11647), (11744, 11775), (11823, 11823),
  (12293, 12293), (12330, 12333), (12337, 12341), (12347, 12347), (12441, 12446)]

def caseIgnorableRanges2 : List (Nat × Nat) := [
  (12540, 12542), (40981, 40981), (42232, 42237), (42508, 42508), (42607, 42610), (42612, 42621), (42623, 42623),
  (42652, 42655), (42736, 42737), (42752, 42785), (42864, 42864), (42888, 42890), (42994, 42996), (43000, 43001),
  (43010, 43010), (43014, 43014), (43019, 43019), (43045, 43046), (43052, 43052), (43204, 43205), (43232, 43249),
  (43263, 43263), (43302, 43309), (43335, 43345), (43392, 43394), (43443, 43443), (43446, 43449), (43452, 43453),
  (43471, 43471), (43493, 43494), (43561, 43566), (43569, 43570), (43573, 43574), (43587, 43587), (43596, 43596),
  (43632, 43632), (43644, 43644), (43696, 43696), (43698, 43700), (43703, 43704), (43710, 43711), (43713, 43713),
  (43741, 43741), (43756, 43757), (43763, 43764), (43766, 43766), (43867, 43871), (43881, 43883), (44005, 44005),
  (44008, 44008), (44013, 44013), (64286, 64286), (64434, 64450), (65024, 65039), (65043, 65043), (65056, 65071),
  (65106, 65106), (65109, 65109), (65279, 65279), (65287, 65287), (65294, 65294), (65306, 65306), (65342, 65342),
  (65344, 65344), (65392, 65392), (65438, 65439), (65507, 65507), (65529, 65531), (66045, 66045), (66272, 66272),
  (66422, 66426), (67456, 67461), (67463, 67504), (67506, 67514), (68097, 68099), (68101, 68102), (68108, 68111),
  (68152, 68154), (68159, 68159), (68325, 68326), (68900, 68903), (69291, 69292), (69446, 69456), (69506, 69509),
  (69633, 69633), (69688, 69702), (69744, 69744), (69747, 69748), (69759, 69761), (69811, 69814), (69817, 69818),
  (69821, 69821), (69826, 69826), (69837, 69837), (69888, 69890), (69927, 69931), (69933, 69940), (70003, 70003),
  (70016, 70017), (70070, 70078), (70089, 70092), (70095, 70095), (70191, 70193), (70196, 70196), (70198, 70199),
  (70206, 70206), (70367, 70367), (70371, 70378), (70400, 70401), (70459, 70460)]

def caseIgnorableRanges3 : List (Nat × Nat) := [
  (70464, 70464), (70502, 70508), (70512, 70516), (70712, 70719), (70722, 70724), (70726, 70726), (70750, 70750),
  (70835, 70840), (70842, 70842), (70847, 70848), (70850, 70851), (71090, 71093), (71100, 71101), (71103, 71104),
  (71132, 71133), (71219, 71226), (71229, 71229), (71231, 71232), (71339, 71339), (71341, 71341), (71344, 71349),
  (71351, 71351), (71453, 71455), (71458, 71461), (71463, 71467), (71727, 71735), (71737, 71738), (71995, 71996),
  (71998, 71998), (72003, 72003), (72148, 72151), (72154, 72155), (72160, 72160), (72193, 72202), (72243, 72248),
  (72251, 72254), (72263, 72263), (72273, 72278), (72281, 72283), (72330, 72342), (72344, 72345), (72752, 72758),
  (72760, 72765), (72767, 72767), (72850, 72871), (72874, 72880), (72882, 72883), (72885, 72886), (73009, 73014),
  (73018, 73018), (73020, 73021), (73023, 73029), (73031, 73031), (73104, 73105), (73109, 73109), (73111, 73111),
  (73459, 73460), (78896, 78904), (92912, 92916), (92976, 92982), (92992, 92995), (94031, 94031), (94095, 94111),
  (94176, 94177), (94179, 94180), (110576, 110579), (110581, 110587), (110589, 110590), (113821, 113822), (113824, 113827),
  (118528, 118573), (118576, 118598), (119143, 119145), (119155, 119170), (119173, 119179), (119210, 119213), (119362, 119364),
  (121344, 121398), (121403, 121452), (121461, 121461), (121476, 121476), (121499, 121503), (121505, 121519), (122880, 122886),
  (122888, 122904), (122907, 122913), (122915, 122916), (122918, 122922), (123184, 123197), (123566, 123566), (123628, 123631),
  (125136, 125142), (125252, 125259), (127995, 127999), (917505, 917505), (917536, 917631), (917760, 917999)]

def isCaseIgnorable (c : Nat) : Bool :=
  (if c < 3761 then caseIgnorableRanges0
    else if c < 12540 then caseIgnorableRanges1
    else if c < 70464 then caseIgnorableRanges2
    else caseIgnorableRanges3).any fun r => Nat.ble r.1 c && Nat.ble c r.2

/-- `case_ignorable_then_cased` from `alloc::str::to_lowercase`: skip
case-ignorable characters, then ask whether the first remaining character is
cased. -/
def caseIgnorableThenCased (l : List Nat) : Bool :=
  match l.dropWhile isCaseIgnorable with
  | [] => false
  | c :: _ => isCased c

/-- `str::to_lowercase`, processed left to right.  `pre` holds the already
consumed characters in reverse order (the `from[..i].chars().rev()` the
final-sigma rule inspects).  U+03A3 maps to U+03C2 exactly in word-final
position (preceded through case-ignorables by a cased character and not so
followed); every other character maps through the full lowercase table. -/
def strToLowercaseAux (pre : List Nat) : List Nat → List Nat
  | [] => []
  | c :: rest =>
    (if c = 931 then
      if caseIgnorableThenCased pre && ! caseIgnorableThenCased rest then [962] else [963]
     else toLower c) ++ strToLowercaseAux (c :: pre) rest

/-- `str::to_lowercase` over a whole string. -/
def strToLowercase (s : List Nat) : List Nat := strToLowercaseAux [] s

/-- `pkg/shared.rs::calculate_path_hash`: starting from `hash = 0`, for each
character of the lower-cased path, `hash = hash.rotate_right(5) ^ char`. -/
def calculate_path_hash (inner_path : List Nat) : Nat :=
  (strToLowercase inner_path).foldl (fun hash byte => Nat.xor (rotr32 hash) byte) 0

/-- The claim's description of the hash as its own recursion: start from
`hash` and, for each character of the given (already lower-cased) string in
turn, set `hash = rotate_right(hash, 5) XOR code_point`. -/
def pathHashSpec (hash : Nat) : List Nat → Nat
  | [] => hash
  | c :: rest => pathHashSpec (Nat.xor (rotr32 hash) c) rest

/-- Little-endian bytes of `n as u32` (as written by `write_u32::<LittleEndian>`). -/
def u32le (n : Nat) : List Nat :=
  [n % 4294967296 % 256,
   n % 4294967296 / 256 % 256,
   n % 4294967296 / 65536 % 256,
   n % 4294967296 / 16777216 % 256]

/-- Big-endian bytes of `n as u32` (as written by `write_u32::<BigEndian>`). -/
def u32be (n : Nat) : List Nat :=
  [n % 4294967296 / 16777216 % 256,
   n % 4294967296 / 65536 % 256,
   n % 4294967296 / 256 % 256,
   n % 4294967296 % 256]

/-- Big-endian bytes of `n as u16`. -/
def u16be (n : Nat) : List Nat :=
  [n % 65536 / 256 % 256, n % 65536 % 256]

/-- Big-endian bytes of `n as u24` (as written by `write_u24::<BigEndian>`). -/
def u24be (n : Nat) : List Nat :=
  [n % 16777216 / 65536 % 256, n % 16777216 / 256 % 256, n % 16777216 % 256]

/-- Byte of a buffer at an absolute position (only used under explicit bounds
guards mirroring the source's slice bounds checks). -/
def byteAt (l : List Nat) (i : Nat) : Nat :=
  l.getD i 0

/-- `read_u32::<LittleEndian>` of the four bytes at position `i`. -/
def readU32LE (l : List Nat) (i : Nat) : Nat :=
  byteAt l i + byteAt l (i + 1) * 256 + byteAt l (i + 2) * 65536 + byteAt l (i + 3) * 16777216

/-- `read_u32::<BigEndian>` of the four bytes at position `i`. -/
def readU32BE (l : List Nat) (i : Nat) : Nat :=
  byteAt l i * 16777216 + byteAt l (i + 1) * 65536 + byteAt l (i + 2) * 256 + byteAt l (i + 3)

/-- `read_u16::<BigEndian>` of the two bytes at position `i`. -/
def readU16BE (l : List Nat) (i : Nat) : Nat :=
  byteAt l i * 256 + byteAt l (i + 1)

/-- `read_u24::<BigEndian>` of the three bytes at position `i`. -/
def readU24BE (l : List Nat) (i : Nat) : Nat :=
  byteAt l i * 65536 + byteAt l (i + 1) * 256 + byteAt l (i + 2)

/-! ## UTF-8

Rust `String`s hold valid UTF-8; `str::as_bytes` is the UTF-8 encoding of the
code-point sequence and `String::from_utf8` is the strict decoder. -/

/-- A valid Rust `char`: a Unicode scalar value. -/
def ValidChar (c : Nat) : Prop :=
  c < 1114112 ∧ ¬(55296 ≤ c ∧ c < 57344)

instance (c : Nat) : Decidable (ValidChar c) := by
  unfold ValidChar; infer_instance

/-- UTF-8 encoding of one scalar value. -/
def utf8EncodeChar (c : Nat) : List Nat :=
  if c < 128 then [c]
  else if c < 2048 then [192 + c / 64, 128 + c % 64]
  else if c < 65536 then [224 + c / 4096, 128 + c / 64 % 64, 128 + c % 64]
  else [240 + c / 262144, 128 + c / 4096 % 64, 128 + c / 64 % 64, 128 + c % 64]

/-- UTF-8 encoding of a string (Rust `str::as_bytes`). -/
def utf8Encode (s : List Nat) : List Nat :=
  s.flatMap utf8EncodeChar

/-- Strict UTF-8 decoding of one scalar value (the leading bytes of Rust
`String::from_utf8`): rejects stray or out-of-place continuation bytes,
truncated sequences, overlong encodings, surrogates and values above
U+10FFFF; returns the decoded scalar and the remaining bytes. -/
def utf8DecodeStep : List Nat → Option (Nat × List Nat)
  | [] => none
  | b0 :: rest =>
    if b0 < 128 then some (b0, rest)
    else if b0 < 194 then none
    else if b0 < 224 then
      match rest with
      | b1 :: rest' =>
        if 128 ≤ b1 ∧ b1 < 192 then some ((b0 - 192) * 64 + (b1 - 128), rest')
        else none
      | [] => none
    else if b0 < 240 then
      match rest with
      | b1 :: b2 :: rest' =>
        if (128 ≤ b1 ∧ b1 < 192) ∧ (128 ≤ b2 ∧ b2 < 192) ∧
            2048 ≤ (b0 - 224) * 4096 + (b1 - 128) * 64 + (b2 - 128) ∧
            ¬(55296 ≤ (b0 - 224) * 4096 + (b1 - 128) * 64 + (b2 - 128) ∧
              (b0 - 224) * 4096 + (b1 - 128) * 64 + (b2 - 128) < 57344) then
          some ((b0 - 224) * 4096 + (b1 - 128) * 64 + (b2 - 128), rest')
        else none
      | _ => none
    else if b0 < 245 then
      match rest with
      | b1 :: b2 :: b3 :: rest' =>
        if (128 ≤ b1 ∧ b1 < 192) ∧ (128 ≤ b2 ∧ b2 < 192) ∧ (128 ≤ b3 ∧ b3 < 192) ∧
            65536 ≤ (b0 - 240) * 262144 + (b1 - 128) * 4096 + (b2 - 128) * 64 + (b3 - 128) ∧
            (b0 - 240) * 262144 + (b1 - 128) * 4096 + (b2 - 128) * 64 + (b3 - 128) <
              1114112 then
          some ((b0 - 240) * 262144 + (b1 - 128) * 4096 + (b2 - 128) * 64 + (b3 - 128), rest')
        else none
      | _ => none
    else none

/-- The decoding loop: the fuel argument (initially the input length, an
upper bound on the number of characters) keeps the recursion structural; a
step consumes at least one byte, so fuel never runs out. -/
def utf8DecodeLoop : Nat → List Nat → Option (List Nat)
  | _, [] => some []
  | 0, _ :: _ => none
  | fuel + 1, b0 :: rest =>
    match utf8DecodeStep (b0 :: rest) with
    | none => none
    | some (c, rest') => (utf8DecodeLoop fuel rest').map (c :: ·)

/-- Strict UTF-8 decoding of a byte buffer (Rust `String::from_utf8`). -/
def utf8Decode (l : List Nat) : Option (List Nat) :=
  utf8DecodeLoop l.length l

/-! ## File system environment and entry content sources -/

/-- State of a file on disk, as observed by `PackageEntry::content`. -/
inductive FsFile where
  | absent
  | unreadable
  | present (content : List Nat)

/-- The ambient file system: maps a path to the state of the file there. -/
def FileSystem : Type := List Nat → FsFile

/-- `shared/entry.rs::DataSource`.  The reference-counted memory map is
modelled by its byte content. -/
inductive DataSource where
  | fileOnDisk (path : List Nat)
  | memoryMappedFile (mmap : List Nat) (offset length : Nat)
  | inMemoryByteArray (content : List Nat)
deriving DecidableEq, Repr

/-- `shared/entry.rs::PackageEntry`. -/
structure PackageEntry where
  inner_path : List Nat
  source : DataSource
deriving DecidableEq, Repr

/-- `shared/entry.rs::PackageEntry::content`.
`FileOnDisk` re-opens the file (`open(..).expect(..)` panics when the file is
gone, `read_to_end` can return an I/O error); `MemoryMappedFile` slices
`mmap[offset..offset + length]`, which panics when the range exceeds the map;
`InMemoryByteArray` copies the buffer. -/
def PackageEntry.content (entry : PackageEntry) (fs : FileSystem) : RResult Unit (List Nat) :=
  match entry.source with
  | .inMemoryByteArray slice => .ok slice
  | .fileOnDisk path =>
    match fs path with
    | .absent => .panic
    | .unreadable => .err ()
    | .present buffer => .ok buffer
  | .memoryMappedFile mmap offset length =>
    if offset + length ≤ mmap.length then .ok ((mmap.drop offset).take length)
    else .panic

/-- `shared/entry.rs::PackageEntry::from_memory_mapped_file` (no validation of
`offset`/`length` against the map). -/
def PackageEntry.from_memory_mapped_file (inner_path : List Nat) (mmap : List Nat)
    (offset length : Nat) : PackageEntry :=
  ⟨inner_path, .memoryMappedFile mmap offset length⟩

/-- `shared/entry.rs::PackageEntry::from_byte_array`. -/
def PackageEntry.from_byte_array (inner_path : List Nat) (content : List Nat) : PackageEntry :=
  ⟨inner_path, .inMemoryByteArray content⟩

/-! ## The path → position index

`BTreeMap<String, usize>` modelled as an association list with unique keys.
The claims only observe the map through `get`/`contains_key`/`insert`/`clear`,
never through its (sorted) iteration order, so the list order is irrelevant. -/

/-- `BTreeMap::get`. -/
def mapLookup : List (List Nat × Nat) → List Nat → Option Nat
  | [], _ => none
  | (k, v) :: rest, key => if k = key then some v else mapLookup rest key

/-- `BTreeMap::contains_key`. -/
def mapContainsKey (m : List (List Nat × Nat)) (key : List Nat) : Bool :=
  (mapLookup m key).isSome

/-- `BTreeMap::insert`: replaces the value under an existing key, otherwise
adds a binding. -/
def mapInsert : List (List Nat × Nat) → List Nat → Nat → List (List Nat × Nat)
  | [], key, v => [(key, v)]
  | (k, w) :: rest, key, v =>
    if k = key then (k, v) :: rest else (k, w) :: mapInsert rest key v

/-! ## Package (`shared/package.rs`) -/

/-- `shared/package.rs::Package`: the ordered entry list plus the
path-to-position index. -/
structure Package where
  entries : List PackageEntry
  inner_path_to_entry_index : List (List Nat × Nat)
deriving DecidableEq, Repr

namespace Package

/-- `Package::new`. -/
def new : Package :=
  ⟨[], []⟩

/-- `Package::append_new_entry`. -/
def append_new_entry (p : Package) (entry : PackageEntry) : Package :=
  { entries := p.entries ++ [entry],
    inner_path_to_entry_index :=
      mapInsert p.inner_path_to_entry_index entry.inner_path p.entries.length }

/-- `Package::add_entry`.  The Rust method mutates `self` and returns
`Result<(), InnerPathAlreadyExistsError>`; the translation returns the result
together with the final state. -/
def add_entry (p : Package) (entry : PackageEntry) :
    Except (List Nat) Unit × Package :=
  if mapContainsKey p.inner_path_to_entry_index entry.inner_path then
    (.error entry.inner_path, p)
  else
    (.ok (), p.append_new_entry entry)

/-- `Package::put_entry`: on an existing path, `Vec::remove` then
`Vec::insert` at the indexed position (panics when the stored position is out
of bounds, modelled by `none`); otherwise `append_new_entry`. -/
def put_entry (p : Package) (entry : PackageEntry) : Option Package :=
  match mapLookup p.inner_path_to_entry_index entry.inner_path with
  | some index =>
    if index < p.entries.length then
      some { p with entries := (p.entries.eraseIdx index).insertIdx index entry }
    else none
  | none => some (p.append_new_entry entry)

/-- `Package::remove_entry`: removes the entry from `entries` at the indexed
position (`Vec::remove` panics when out of bounds, modelled by `none`) and
returns `true`; the index map is left untouched by the source. -/
def remove_entry (p : Package) (inner_path : List Nat) : Option (Package × Bool) :=
  match mapLookup p.inner_path_to_entry_index inner_path with
  | some index =>
    if index < p.entries.length then
      some ({ p with entries := p.entries.eraseIdx index }, true)
    else none
  | none => some (p, false)

/-- `Package::entry_exists`. -/
def entry_exists (p : Package) (inner_path : List Nat) : Bool :=
  (mapLookup p.inner_path_to_entry_index inner_path).isSome

/-- `Package::clear`. -/
def clear (_p : Package) : Package :=
  ⟨[], []⟩

/-- `Package::inner_paths`. -/
def inner_paths (p : Package) : List (List Nat) :=
  p.entries.map (·.inner_path)

/-- `Package::entry_count`. -/
def entry_count (p : Package) : Nat :=
  p.entries.length

/-- `Package::content_by_path`.  The outer `Option` models panic-freedom
(`entry.content().unwrap()` panics when `content` fails); the inner `Option`
is the function's return value. -/
def content_by_path (p : Package) (fs : FileSystem) (inner_path : List Nat) :
    Option (Option (List Nat)) :=
  match mapLookup p.inner_path_to_entry_index inner_path with
  | some index =>
    match p.entries.get? index with
    | some entry =>
      match entry.content fs with
      | .ok c => some (some c)
      | _ => none
    | none => some none
  | none => some none

/-- The documented `Package` invariant: every binding of the index points at
an in-range entry bearing exactly that path, every entry's path is indexed at
the entry's position, and the index is a genuine map (no duplicate keys). -/
def Wf (p : Package) : Prop :=
  (∀ kv ∈ p.inner_path_to_entry_index,
      ∃ h : kv.2 < p.entries.length, (p.entries.get ⟨kv.2, h⟩).inner_path = kv.1) ∧
  (∀ i : Fin p.entries.length,
      mapLookup p.inner_path_to_entry_index (p.entries.get i).inner_path = some i.val) ∧
  (p.inner_path_to_entry_index.map Prod.fst).Nodup

instance (p : Package) : Decidable p.Wf := by
  unfold Wf; infer_instance

end Package

/-! ## Errors

The source's nested error enums (`shared/error/*.rs`, `pkg/error.rs`) are
flattened into one inductive per direction; the payloads of each variant are
kept exactly. -/

/-- Read-side errors (`PackageReadError` and the enums boxed inside it). -/
inductive PackageReadError where
  | ioError
  | utf8DecodeError
  | unsupportedDeflatedEntryError
  | pathHashMismatchError (inner_path : List Nat) (expected actual : Nat)
  | signatureMismatchError (expected actual : Nat)
  | headerSizeMismatchError (expected actual : Nat)
  | entriesHeaderSizeMismatchError (expected actual : Nat)
  | innerPathAlreadyExistsError (inner_path : List Nat)
deriving DecidableEq, Repr

/-- Write-side errors (`PackageWriteError` and the enums boxed inside it). -/
inductive PackageWriteError where
  | ioError
  | entryCountExceededError
  | pathAreaSizeExceededError (size : Nat)
deriving DecidableEq, Repr

/-! ## Seekable output streams

Both writers target `impl Write + Seek`.  A stream is a write position plus
the bytes written so far; writing past the end zero-fills the gap (the
behavior of files and of `Cursor<Vec<u8>>`), writing before the end
overwrites. -/

structure OutStream where
  pos : Nat
  data : List Nat
deriving DecidableEq, Repr

namespace OutStream

def writeByte (s : OutStream) (b : Nat) : OutStream :=
  if s.pos < s.data.length then ⟨s.pos + 1, s.data.set s.pos b⟩
  else ⟨s.pos + 1, s.data ++ List.replicate (s.pos - s.data.length) 0 ++ [b]⟩

def writeBytes (s : OutStream) (bs : List Nat) : OutStream :=
  bs.foldl writeByte s

/-- `Seek::seek(SeekFrom::Start p)`. -/
def seek (s : OutStream) (p : Nat) : OutStream :=
  ⟨p, s.data⟩

end OutStream

/-! ## DAT codec (`dat/writer.rs`, `dat/reader.rs`) -/

/-- Modelled from the spec: `dat/constants.rs` is absent from the sources
(`dat/reader.rs` imports `INDEX_SIZE` from it).  Per the spec's DAT layout the
header is a single little-endian `u32 entry_count`, and the writer hard-codes
the matching literal `4`, so `INDEX_SIZE = 4`. -/
def dat.INDEX_SIZE : Nat := 4

/-- `dat/writer.rs::write_entry`: content length, path length, path bytes,
content bytes.  A content failure surfaces as the converted I/O error. -/
def dat.write_entry (entry : PackageEntry) (fs : FileSystem) (output : OutStream) :
    RResult PackageWriteError OutStream :=
  match entry.content fs with
  | .panic => .panic
  | .err _ => .err .ioError
  | .ok content =>
    let o := output.writeBytes (u32le content.length)
    let o := o.writeBytes (u32le (utf8Encode entry.inner_path).length)
    let o := o.writeBytes (utf8Encode entry.inner_path)
    let o := o.writeBytes content
    .ok o

/-- The entry loop of `dat/writer.rs::write_package_to_output`: records the
stream position (`as u32`) of each entry, then writes the entry;
`write_entry(..).expect(..)` turns any entry failure into a panic (`none`). -/
def datWriteEntries (fs : FileSystem) :
    List PackageEntry → OutStream → List Nat → Option (OutStream × List Nat)
  | [], o, offs => some (o, offs)
  | e :: rest, o, offs =>
    let off := o.pos % 4294967296
    match dat.write_entry e fs o with
    | .ok o' => datWriteEntries fs rest o' (offs ++ [off])
    | _ => none

/-- `dat/writer.rs::write_package_to_output`: entry count, seek past the
offset table, write the entries recording their offsets, seek back and fill
the table in. -/
def dat.write_package_to_output (package : Package) (fs : FileSystem) (output : OutStream) :
    RResult PackageWriteError OutStream :=
  let index_size := package.entry_count
  let o := output.writeBytes (u32le index_size)
  let o := o.seek (4 + 4 * index_size)
  match datWriteEntries fs package.entries o [] with
  | none => .panic
  | some (o, entry_offsets) =>
    let o := o.seek 4
    let o := entry_offsets.foldl (fun s off => s.writeBytes (u32le off)) o
    .ok o

/-- The fields of `dat/reader.rs::EntryBuilder`. -/
structure DatEntryBuilder where
  inner_path : List Nat
  data_offset : Nat
  data_size : Nat
deriving DecidableEq, Repr

/-- `dat/reader.rs::EntryBuilder::build`. -/
def DatEntryBuilder.build (b : DatEntryBuilder) (input : List Nat) : PackageEntry :=
  PackageEntry.from_memory_mapped_file b.inner_path input b.data_offset b.data_size

/-- `dat/reader.rs::EntryBuilder::read_entry`: slices `mmap[off..off+8]` for
the two length fields and `mmap[off+8..entry_end]` for path and content
(slicing out of range panics), then decodes the path as UTF-8 (a decode
failure is returned as an error — which the caller then unwraps). -/
def dat.read_entry (mmap : List Nat) (entry_offset : Nat) :
    RResult PackageReadError DatEntryBuilder :=
  if entry_offset + 8 ≤ mmap.length then
    let entry_content_length := readU32LE mmap entry_offset
    let inner_path_length := readU32LE mmap (entry_offset + 4)
    let entry_end := entry_offset + 8 + inner_path_length + entry_content_length
    if entry_end ≤ mmap.length then
      match utf8Decode ((mmap.drop (entry_offset + 8)).take inner_path_length) with
      | some inner_path =>
        .ok ⟨inner_path, entry_offset + 8 + inner_path_length, entry_content_length⟩
      | none => .err .utf8DecodeError
    else .panic
  else .panic

/-- The offset-table loop of `dat/reader.rs::read_from_input`: `entry_count`
sequential little-endian `u32` reads starting at `INDEX_SIZE`. -/
def datReadOffsets (mmap : List Nat) (pos : Nat) : Nat → List Nat
  | 0 => []
  | n + 1 => readU32LE mmap pos :: datReadOffsets mmap (pos + 4) n

/-- The builder loop of `dat/reader.rs::read_from_input`:
`read_entry(..).expect("Failed to read entry")` panics (`none`) on any entry
error instead of propagating it. -/
def datReadBuilders (mmap : List Nat) : List Nat → Option (List DatEntryBuilder)
  | [] => some []
  | off :: rest =>
    match dat.read_entry mmap off with
    | .ok b => (datReadBuilders mmap rest).map (b :: ·)
    | _ => none

/-- The insertion loop of `dat/reader.rs::read_from_input`: each built entry
is added through `Package::add_entry`, whose duplicate-path error propagates
(`?`). -/
def datInsertEntries (mmap : List Nat) :
    List DatEntryBuilder → Package → RResult PackageReadError Package
  | [], p => .ok p
  | b :: rest, p =>
    match p.add_entry (b.build mmap) with
    | (.error pth, _) => .err (.innerPathAlreadyExistsError pth)
    | (.ok _, p') => datInsertEntries mmap rest p'

/-- `dat/reader.rs::read_from_input` over the memory-mapped input bytes.
Slicing `mmap[..4]` and `mmap[4..4 + 4*entry_count]` panics when the input is
too short. -/
def dat.read_from_input (mmap : List Nat) : RResult PackageReadError Package :=
  if dat.INDEX_SIZE ≤ mmap.length then
    let entry_count := readU32LE mmap 0
    let entry_area_offset := dat.INDEX_SIZE + entry_count * 4
    if entry_area_offset ≤ mmap.length then
      let entry_offsets := datReadOffsets mmap dat.INDEX_SIZE entry_count
      match datReadBuilders mmap entry_offsets with
      | some builders => datInsertEntries mmap builders Package.new
      | none => .panic
    else .panic
  else .panic

/-! ## The DAT byte layout, described directly -/

/-- One DAT entry record: content length, path length, path bytes, content. -/
def datEntryRecord (inner_path content : List Nat) : List Nat :=
  u32le content.length ++ u32le (utf8Encode inner_path).length ++
    utf8Encode inner_path ++ content

/-- The records of a list of (path, content) pairs. -/
def datRecords (pcs : List (List Nat × List Nat)) : List (List Nat) :=
  pcs.map fun pc => datEntryRecord pc.1 pc.2

/-- Absolute start offsets of consecutive records, the first at `start`. -/
def datOffsets (start : Nat) : List (List Nat) → List Nat
  | [] => []
  | r :: rest => start :: datOffsets (start + r.length) rest

/-- The full DAT image of a list of (path, content) pairs. -/
def datLayout (pcs : List (List Nat × List Nat)) : List Nat :=
  u32le pcs.length ++
    (datOffsets (4 + 4 * pcs.length) (datRecords pcs)).flatMap u32le ++
    (datRecords pcs).flatten

/-- The builders the DAT reader derives from consecutive records starting at
offset `start`. -/
def datBuilders (start : Nat) : List (List Nat × List Nat) → List DatEntryBuilder
  | [] => []
  | (path, c) :: rest =>
    ⟨path, start + 8 + (utf8Encode path).length, c.length⟩ ::
      datBuilders (start + (datEntryRecord path c).length) rest

/-- The contents of a list of entries under a file system, when every
`content()` call succeeds. -/
def entryContents (fs : FileSystem) : List PackageEntry → Option (List (List Nat))
  | [] => some []
  | e :: rest =>
    match e.content fs with
    | .ok c => (entryContents fs rest).map (c :: ·)
    | _ => none

/-! ## PKG codec (`pkg/writer.rs`, `pkg/reader.rs`, `pkg/constants.rs`) -/

/-- `pkg/constants.rs::PKG_SIGNATURE` (the bytes of "PKG\n"). -/
def PKG_SIGNATURE : List Nat := [80, 75, 71, 10]

/-- `pkg/constants.rs::INDEX_SIZE`. -/
def pkg.INDEX_SIZE : Nat := 16

/-- `pkg/constants.rs::ENTRY_SIZE`. -/
def pkg.ENTRY_SIZE : Nat := 20

/-- `pkg/writer.rs::EntryHeader`. -/
structure EntryHeader where
  inner_path_hash : Nat
  entry_options : Nat
  inner_path_offset : Nat
  data_offset : Nat
  data_size : Nat
  unpacked_data_size : Nat
deriving DecidableEq, Repr

/-- `impl From<&PackageEntry> for EntryHeader`:
`entry.content().expect(..)` panics (`none`) when content retrieval fails;
sizes are stored `as u32`. -/
def EntryHeader.from_entry (entry : PackageEntry) (fs : FileSystem) : Option EntryHeader :=
  match entry.content fs with
  | .ok content =>
    some ⟨calculate_path_hash entry.inner_path, 0, 0, 0,
          content.length % 4294967296, content.length % 4294967296⟩
  | _ => none

/-- `pkg/writer.rs::EntryHeader::write_entry_header`: hash, options byte,
`u24` path offset, `u32` data offset, sizes — all big-endian. -/
def EntryHeader.write_entry_header (h : EntryHeader) (output : OutStream) : OutStream :=
  (((((output.writeBytes (u32be h.inner_path_hash)).writeBytes
      [h.entry_options % 256]).writeBytes
      (u24be h.inner_path_offset)).writeBytes
      (u32be h.data_offset)).writeBytes
      (u32be h.data_size)).writeBytes
      (u32be h.unpacked_data_size)

/-- The per-entry loop of `pkg/writer.rs::write_package_to_output`: builds the
headers (path offset `as u32`, relative data offset with wrapping u32
accumulation) and the null-terminated path region. -/
def pkgBuildHeaders (fs : FileSystem) :
    List PackageEntry → Nat → List EntryHeader → List Nat →
    RResult PackageWriteError (List EntryHeader × List Nat)
  | [], _, headers, path_region => .ok (headers, path_region)
  | e :: rest, data_offset, headers, path_region =>
    match EntryHeader.from_entry e fs with
    | none => .panic
    | some h0 =>
      let h1 := { h0 with inner_path_offset := path_region.length % 4294967296,
                          data_offset := data_offset }
      match e.content fs with
      | .ok content =>
        pkgBuildHeaders fs rest ((data_offset + content.length) % 4294967296)
          (headers ++ [h1]) (path_region ++ utf8Encode e.inner_path ++ [0])
      | .err _ => .err .ioError
      | .panic => .panic

/-- The data-region start computed by `pkg/writer.rs::write_package_to_output`
(lines 105–109): `INDEX_SIZE + ENTRY_SIZE * entry_count + path_region_size +
(4 - path_region_size % 4)`, in `u64` arithmetic. -/
def pkg.data_region_offset (entry_count path_region_size : Nat) : Nat :=
  pkg.INDEX_SIZE + pkg.ENTRY_SIZE * entry_count + path_region_size +
    (4 - path_region_size % 4)

/-- The content loop at the end of `pkg/writer.rs::write_package_to_output`. -/
def pkgWriteContents (fs : FileSystem) :
    List PackageEntry → OutStream → RResult PackageWriteError OutStream
  | [], o => .ok o
  | e :: rest, o =>
    match e.content fs with
    | .ok content => pkgWriteContents fs rest (o.writeBytes content)
    | .err _ => .err .ioError
    | .panic => .panic

/-- `pkg/writer.rs::write_package_to_output`: signature, constants, entry
count (checked against `u32::MAX`), path region size (checked likewise),
entry headers with the data offsets rebased by `data_region_offset`
(`+= .. as u32`, wrapping), the path region, then a seek to the data region
start and every entry's content. -/
def pkg.write_package_to_output (package : Package) (fs : FileSystem) (output : OutStream) :
    RResult PackageWriteError OutStream :=
  let o := output.writeBytes PKG_SIGNATURE
  let o := o.writeBytes (u16be pkg.INDEX_SIZE)
  let o := o.writeBytes (u16be pkg.ENTRY_SIZE)
  if 4294967295 < package.entry_count then .err .entryCountExceededError
  else
    let o := o.writeBytes (u32be package.entry_count)
    match pkgBuildHeaders fs package.entries 0 [] [] with
    | .panic => .panic
    | .err e => .err e
    | .ok (entry_headers, path_region_buffer) =>
      if 4294967295 < path_region_buffer.length then
        .err (.pathAreaSizeExceededError path_region_buffer.length)
      else
        let o := o.writeBytes (u32be path_region_buffer.length)
        let dro := pkg.data_region_offset package.entry_count path_region_buffer.length
        let o := (entry_headers.map fun h =>
                    { h with data_offset := (h.data_offset + dro) % 4294967296 }).foldl
                  (fun s h => h.write_entry_header s) o
        let o := o.writeBytes path_region_buffer
        let o := o.seek dro
        match pkgWriteContents fs package.entries o with
        | .ok o' => .ok o'
        | .err e => .err e
        | .panic => .panic

/-- The fields of `pkg/reader.rs::EntryBuilder` filled by
`read_entry_header`. -/
structure PkgEntryBuilder where
  inner_path_hash : Nat
  inner_path_offset : Nat
  data_offset : Nat
  data_size : Nat
deriving DecidableEq, Repr

/-- The signature loop of `pkg/reader.rs::read_package_from_file`: compares
byte by byte, failing on the first divergent byte with expected and actual
values. -/
def pkgCheckSigAux (mmap : List Nat) (pos : Nat) : List Nat → Option PackageReadError
  | [] => none
  | expected :: rest =>
    let actual := byteAt mmap pos
    if actual ≠ expected then some (.signatureMismatchError expected actual)
    else pkgCheckSigAux mmap (pos + 1) rest

/-- `pkg/reader.rs::EntryBuilder::read_entry_header`: reads all six fields,
then rejects a set deflate bit (`entry_options & PKG_DEFLATED != 0`). -/
def pkg.read_entry_header (input : List Nat) (pos : Nat) :
    RResult PackageReadError PkgEntryBuilder :=
  let inner_path_hash := readU32BE input pos
  let entry_options := byteAt input (pos + 4)
  let inner_path_offset := readU24BE input (pos + 5)
  let data_offset := readU32BE input (pos + 8)
  let data_size := readU32BE input (pos + 12)
  if entry_options % 2 = 1 then .err .unsupportedDeflatedEntryError
  else .ok ⟨inner_path_hash, inner_path_offset, data_offset, data_size⟩

/-- The header loop of `pkg/reader.rs::read_package_from_file`: `entry_count`
sequential 20-byte headers starting at `INDEX_SIZE`; the first header error
aborts. -/
def pkgReadHeaders (input : List Nat) (pos : Nat) :
    Nat → RResult PackageReadError (List PkgEntryBuilder)
  | 0 => .ok []
  | n + 1 =>
    match pkg.read_entry_header input pos with
    | .ok b => (pkgReadHeaders input (pos + 20) n).map (b :: ·)
    | .err e => .err e
    | .panic => .panic

/-- `pkg/reader.rs::read_null_terminated_string`: reads bytes up to the null
terminator, pushing each byte as one `char`; reading past the end of the
region cursor is an I/O error. -/
def read_null_terminated_string : List Nat → RResult PackageReadError (List Nat)
  | [] => .err .ioError
  | b :: rest =>
    if b = 0 then .ok []
    else (read_null_terminated_string rest).map (b :: ·)

/-- `pkg/reader.rs::EntryBuilder::read_inner_path`: seek the path-region
cursor to the stored offset, decode the null-terminated string, then compare
the recomputed hash with the stored one (error carries the decoded path, the
stored hash as `expected` and the recomputed one as `actual`). -/
def PkgEntryBuilder.read_inner_path (b : PkgEntryBuilder) (path_region : List Nat) :
    RResult PackageReadError (List Nat) :=
  match read_null_terminated_string (path_region.drop b.inner_path_offset) with
  | .ok inner_path =>
    if calculate_path_hash inner_path ≠ b.inner_path_hash then
      .err (.pathHashMismatchError inner_path b.inner_path_hash
              (calculate_path_hash inner_path))
    else .ok inner_path
  | .err e => .err e
  | .panic => .panic

/-- The resolution loop of `pkg/reader.rs::read_package_from_file`: resolve
each builder's path against the path region, build the memory-mapped entry
and add it (duplicate paths propagate as errors via `?`). -/
def pkgResolveEntries (mmap path_region : List Nat) :
    List PkgEntryBuilder → Package → RResult PackageReadError Package
  | [], p => .ok p
  | b :: rest, p =>
    match b.read_inner_path path_region with
    | .err e => .err e
    | .panic => .panic
    | .ok inner_path =>
      match p.add_entry
          (PackageEntry.from_memory_mapped_file inner_path mmap b.data_offset b.data_size) with
      | (.error pth, _) => .err (.innerPathAlreadyExistsError pth)
      | (.ok _, p') => pkgResolveEntries mmap path_region rest p'

/-- `pkg/reader.rs::read_package_from_file`: signature and header-constant
checks, header loop, path-region slice, then the resolution loop.  Slicing
`mmap[..16]`, `mmap[16..path_region_offset]` or the path region out of range
panics. -/
def pkg.read_package_from_file (mmap : List Nat) : RResult PackageReadError Package :=
  if pkg.INDEX_SIZE ≤ mmap.length then
    match pkgCheckSigAux mmap 0 PKG_SIGNATURE with
    | some e => .err e
    | none =>
      let index_size := readU16BE mmap 4
      if index_size ≠ pkg.INDEX_SIZE then
        .err (.headerSizeMismatchError pkg.INDEX_SIZE index_size)
      else
        let entry_size := readU16BE mmap 6
        if entry_size ≠ pkg.ENTRY_SIZE then
          .err (.entriesHeaderSizeMismatchError pkg.ENTRY_SIZE entry_size)
        else
          let entry_count := readU32BE mmap 8
          let path_region_size := readU32BE mmap 12
          let path_region_offset := pkg.INDEX_SIZE + pkg.ENTRY_SIZE * entry_count
          if path_region_offset ≤ mmap.length then
            match pkgReadHeaders mmap pkg.INDEX_SIZE entry_count with
            | .err e => .err e
            | .panic => .panic
            | .ok builders =>
              if path_region_offset + path_region_size ≤ mmap.length then
                let path_region := (mmap.drop path_region_offset).take path_region_size
                pkgResolveEntries mmap path_region builders Package.new
              else .panic
          else .panic
  else .panic

/-- Repeated `Package::append_new_entry`, as performed by the reader loops
when every insertion succeeds. -/
def appendAll (p : Package) (es : List PackageEntry) : Package :=
  es.foldl Package.append_new_entry p

/-! ## Facts about the index map and list surgery -/

theorem mapLookup_mem {m : List (List Nat × Nat)} {k : List Nat} {v : Nat}
    (h : mapLookup m k = some v) : (k, v) ∈ m := by
  induction m with
  | nil => simp [mapLookup] at h
  | cons kv rest ih =>
    obtain ⟨k', v'⟩ := kv
    by_cases hk : k' = k
    · subst hk
      simp [mapLookup] at h
      subst h
      exact List.mem_cons_self _ _
    · simp [mapLookup, hk] at h
      exact List.mem_cons_of_mem _ (ih h)

theorem lookup_isSome_of_mem_paths {p : Package} (hwf : p.Wf) {pth : List Nat}
    (h : pth ∈ p.inner_paths) :
    (mapLookup p.inner_path_to_entry_index pth).isSome = true := by
  unfold Package.inner_paths at h
  obtain ⟨e, he, hpath⟩ := List.mem_map.mp h
  obtain ⟨i, hi⟩ := List.mem_iff_get.mp he
  have := hwf.2.1 i
  rw [hi, hpath] at this
  simp [this]

theorem eraseIdx_insertIdx_eq_set {α : Type} {l : List α} {i : Nat}
    (h : i < l.length) (a : α) : (l.eraseIdx i).insertIdx i a = l.set i a := by
  induction l generalizing i with
  | nil => simp at h
  | cons x xs ih =>
    cases i with
    | zero => simp [List.eraseIdx, List.insertIdx]
    | succ j =>
      simp only [List.eraseIdx_cons_succ, List.insertIdx_succ_cons, List.set_cons_succ]
      exact congrArg (x :: ·) (ih (by simpa using h))

/-! ## Facts about output streams -/

theorem writeBytes_pos (s : OutStream) (bs : List Nat) :
    (s.writeBytes bs).pos = s.pos + bs.length := by
  induction bs generalizing s with
  | nil => simp [OutStream.writeBytes]
  | cons b bs ih =>
    simp only [OutStream.writeBytes, List.foldl_cons] at *
    rw [ih]
    have : (s.writeByte b).pos = s.pos + 1 := by
      unfold OutStream.writeByte
      split <;> rfl
    rw [this]
    simp only [List.length_cons]
    omega

theorem writeBytes_writeBytes (s : OutStream) (a b : List Nat) :
    (s.writeBytes a).writeBytes b = s.writeBytes (a ++ b) := by
  simp [OutStream.writeBytes, List.foldl_append]

theorem writeByte_append (d : List Nat) (b : Nat) :
    OutStream.writeByte ⟨d.length, d⟩ b = ⟨d.length + 1, d ++ [b]⟩ := by
  simp [OutStream.writeByte]

theorem writeBytes_append (bs : List Nat) (d : List Nat) :
    OutStream.writeBytes ⟨d.length, d⟩ bs = ⟨d.length + bs.length, d ++ bs⟩ := by
  induction bs generalizing d with
  | nil => simp [OutStream.writeBytes]
  | cons b bs ih =>
    simp only [OutStream.writeBytes, List.foldl_cons]
    rw [writeByte_append]
    have h1 : (d.length + 1 : Nat) = (d ++ [b]).length := by simp
    have h2 := ih (d ++ [b])
    simp only [OutStream.writeBytes] at h2
    rw [h1, h2]
    refine congrArg₂ OutStream.mk (by simp; omega) (by simp)

theorem writeBytes_pad (b : Nat) (bs : List Nat) (p : Nat) (d : List Nat)
    (h : d.length ≤ p) :
    OutStream.writeBytes ⟨p, d⟩ (b :: bs) =
      ⟨p + 1 + bs.length, (d ++ List.replicate (p - d.length) 0 ++ [b]) ++ bs⟩ := by
  simp only [OutStream.writeBytes, List.foldl_cons]
  have h1 : OutStream.writeByte ⟨p, d⟩ b =
      ⟨p + 1, d ++ List.replicate (p - d.length) 0 ++ [b]⟩ := by
    simp [OutStream.writeByte, Nat.not_lt.mpr h]
  rw [h1]
  have hlen : p + 1 = (d ++ List.replicate (p - d.length) 0 ++ [b]).length := by
    simp
    omega
  have h2 := writeBytes_append bs (d ++ List.replicate (p - d.length) 0 ++ [b])
  simp only [OutStream.writeBytes] at h2
  rw [hlen, h2]

theorem take_succ_set {α : Type} (d : List α) (p : Nat) (b : α) (h : p < d.length) :
    (d.set p b).take (p + 1) = d.take p ++ [b] := by
  induction d generalizing p with
  | nil => simp at h
  | cons x xs ih =>
    cases p with
    | zero => simp
    | succ q =>
      simp only [List.set_cons_succ, List.take_succ_cons]
      rw [ih q (by simpa using h)]
      simp

theorem drop_set_of_lt' {α : Type} (d : List α) (p q : Nat) (b : α) (h : p < q) :
    (d.set p b).drop q = d.drop q := by
  induction d generalizing p q with
  | nil => simp
  | cons x xs ih =>
    cases p with
    | zero =>
      cases q with
      | zero => omega
      | succ r => simp
    | succ p' =>
      cases q with
      | zero => omega
      | succ r =>
        simp only [List.set_cons_succ, List.drop_succ_cons]
        exact ih p' r (by omega)

theorem writeBytes_overwrite (bs : List Nat) (p : Nat) (d : List Nat)
    (h : p + bs.length ≤ d.length) :
    OutStream.writeBytes ⟨p, d⟩ bs =
      ⟨p + bs.length, d.take p ++ bs ++ d.drop (p + bs.length)⟩ := by
  induction bs generalizing p d with
  | nil => simp [OutStream.writeBytes]
  | cons b bs ih =>
    have hp : p < d.length := by simp at h; omega
    simp only [OutStream.writeBytes, List.foldl_cons]
    have h1 : OutStream.writeByte ⟨p, d⟩ b = ⟨p + 1, d.set p b⟩ := by
      simp [OutStream.writeByte, hp]
    rw [h1]
    have h2 := ih (p + 1) (d.set p b) (by simp at h ⊢; omega)
    simp only [OutStream.writeBytes] at h2
    rw [h2]
    have h3 : p + 1 + bs.length = p + (b :: bs).length := by simp; omega
    rw [h3, take_succ_set _ _ _ hp, drop_set_of_lt' _ _ _ _ (by simp <;> omega)]
    simp [List.append_assoc]

/-! ## Reading back the written integers -/

theorem byteAt_append_right (l1 l2 : List Nat) (i : Nat) :
    byteAt (l1 ++ l2) (l1.length + i) = byteAt l2 i := by
  induction l1 with
  | nil => simp [byteAt]
  | cons x xs ih =>
    have h : (x :: xs).length + i = (xs.length + i) + 1 := by
      simp
      omega
    rw [h]
    simpa [byteAt] using ih

theorem readU32LE_append (l1 l2 : List Nat) (i : Nat) :
    readU32LE (l1 ++ l2) (l1.length + i) = readU32LE l2 i := by
  unfold readU32LE
  rw [show l1.length + i + 1 = l1.length + (i + 1) by omega,
      show l1.length + i + 2 = l1.length + (i + 2) by omega,
      show l1.length + i + 3 = l1.length + (i + 3) by omega,
      byteAt_append_right, byteAt_append_right, byteAt_append_right, byteAt_append_right]

theorem readU32LE_cons (a b c d : Nat) (rest : List Nat) :
    readU32LE (a :: b :: c :: d :: rest) 0 =
      a + b * 256 + c * 65536 + d * 16777216 := rfl

theorem readU32LE_u32le (n : Nat) (rest : List Nat) :
    readU32LE (u32le n ++ rest) 0 = n % 4294967296 := by
  rw [show u32le n ++ rest =
        (n % 4294967296 % 256) :: (n % 4294967296 / 256 % 256) ::
          (n % 4294967296 / 65536 % 256) :: (n % 4294967296 / 16777216 % 256) :: rest
      from rfl,
      readU32LE_cons]
  omega

/-! ## UTF-8 round trip -/

theorem utf8DecodeStep_encodeChar (c : Nat) (hc : ValidChar c) (bs : List Nat) :
    utf8DecodeStep (utf8EncodeChar c ++ bs) = some (c, bs) := by
  obtain ⟨hlt, hsur⟩ := hc
  by_cases h1 : c < 128
  · rw [show utf8EncodeChar c ++ bs = c :: bs by simp [utf8EncodeChar, h1]]
    simp [utf8DecodeStep, h1]
  · by_cases h2 : c < 2048
    · rw [show utf8EncodeChar c ++ bs = (192 + c / 64) :: (128 + c % 64) :: bs by
            simp [utf8EncodeChar, h1, h2]]
      simp only [utf8DecodeStep]
      rw [if_neg (by omega), if_neg (by omega), if_pos (by omega),
          if_pos (by constructor <;> omega)]
      exact congrArg some (by rw [Prod.mk.injEq]; exact ⟨by omega, rfl⟩)
    · by_cases h3 : c < 65536
      · rw [show utf8EncodeChar c ++ bs =
              (224 + c / 4096) :: (128 + c / 64 % 64) :: (128 + c % 64) :: bs by
              simp [utf8EncodeChar, h1, h2, h3]]
        simp only [utf8DecodeStep]
        rw [if_neg (by omega), if_neg (by omega), if_neg (by omega), if_pos (by omega),
            if_pos (by refine ⟨by omega, by omega, by omega, by omega⟩)]
        exact congrArg some (by rw [Prod.mk.injEq]; exact ⟨by omega, rfl⟩)
      · rw [show utf8EncodeChar c ++ bs =
              (240 + c / 262144) :: (128 + c / 4096 % 64) :: (128 + c / 64 % 64) ::
                (128 + c % 64) :: bs by simp [utf8EncodeChar, h1, h2, h3]]
        simp only [utf8DecodeStep]
        rw [if_neg (by omega), if_neg (by omega), if_neg (by omega), if_neg (by omega),
            if_pos (by omega),
            if_pos (by refine ⟨by omega, by omega, by omega, by omega, by omega⟩)]
        exact congrArg some (by rw [Prod.mk.injEq]; exact ⟨by omega, rfl⟩)

theorem utf8EncodeChar_length_pos (c : Nat) : 0 < (utf8EncodeChar c).length := by
  unfold utf8EncodeChar
  split_ifs <;> simp

theorem utf8DecodeLoop_encode (s : List Nat) (fuel : Nat) (h : ∀ c ∈ s, ValidChar c)
    (hfuel : (utf8Encode s).length ≤ fuel) :
    utf8DecodeLoop fuel (utf8Encode s) = some s := by
  induction s generalizing fuel with
  | nil =>
    cases fuel <;> rfl
  | cons c cs ih =>
    have e : utf8Encode (c :: cs) = utf8EncodeChar c ++ utf8Encode cs := by
      simp [utf8Encode]
    rw [e] at hfuel ⊢
    have hpos := utf8EncodeChar_length_pos c
    have hne : utf8EncodeChar c ++ utf8Encode cs ≠ [] := by
      intro habs
      rw [List.append_eq_nil] at habs
      have := habs.1
      simp [this] at hpos
    obtain ⟨b0, rest, hcons⟩ := List.exists_cons_of_ne_nil hne
    have hfuel1 : 1 ≤ fuel := by
      rw [List.length_append] at hfuel
      omega
    obtain ⟨fuel', rfl⟩ : ∃ f, fuel = f + 1 := ⟨fuel - 1, by omega⟩
    rw [hcons, utf8DecodeLoop, ← hcons,
        utf8DecodeStep_encodeChar c (h c (List.mem_cons_self c cs)) (utf8Encode cs)]
    dsimp only
    rw [ih fuel' (fun x hx => h x (List.mem_cons_of_mem _ hx))
        (by rw [List.length_append] at hfuel; omega)]
    rfl

theorem utf8Decode_utf8Encode (s : List Nat) (h : ∀ c ∈ s, ValidChar c) :
    utf8Decode (utf8Encode s) = some s :=
  utf8DecodeLoop_encode s _ h le_rfl

theorem utf8Encode_ascii (s : List Nat) (h : ∀ c ∈ s, c < 128) : utf8Encode s = s := by
  induction s with
  | nil => rfl
  | cons c cs ih =>
    have e : utf8Encode (c :: cs) = utf8EncodeChar c ++ utf8Encode cs := by
      simp [utf8Encode]
    rw [e, ih (fun x hx => h x (by simp [hx]))]
    simp [utf8EncodeChar, h c (by simp)]

/-! ## Claim theorems: the Package operations and the path hash -/

theorem pathHashSpec_eq_foldl (l : List Nat) (h : Nat) :
    pathHashSpec h l = l.foldl (fun hash byte => Nat.xor (rotr32 hash) byte) h := by
  induction l generalizing h with
  | nil => rfl
  | cons c rest ih => simp [pathHashSpec, ih]

theorem pathHashSpec_append (l1 l2 : List Nat) (h : Nat) :
    pathHashSpec h (l1 ++ l2) = pathHashSpec (pathHashSpec h l1) l2 := by
  induction l1 generalizing h with
  | nil => rfl
  | cons c rest ih => simp [pathHashSpec, ih]

/-- C3: the PKG path hash lower-cases the path exactly as `str::to_lowercase`
does and then starts from 0 and, for each character of the lowered string in
turn, sets `hash = rotate_right(hash, 5) XOR code_point` (so consuming one
more lowered character rotates the running hash right by five bits and XORs
the code point in); in particular
`calculate_path_hash "test1.txt" = 157232055` and
`calculate_path_hash "audio/music/bp_MUS_CivilBATTLE.ogg" = 1735861093`. -/
theorem C3_path_hash :
    (∀ s : List Nat, calculate_path_hash s = pathHashSpec 0 (strToLowercase s)) ∧
    (∀ (h c : Nat) (l : List Nat),
      pathHashSpec h (l ++ [c]) = Nat.xor (rotr32 (pathHashSpec h l)) c) ∧
    calculate_path_hash [116, 101, 115, 116, 49, 46, 116, 120, 116] = 157232055 ∧
    calculate_path_hash
      [97, 117, 100, 105, 111, 47, 109, 117, 115, 105, 99, 47, 98, 112, 95, 77, 85, 83,
       95, 67, 105, 118, 105, 108, 66, 65, 84, 84, 76, 69, 46, 111, 103, 103] =
      1735861093 := by
  refine ⟨?_, ?_, by decide, by decide⟩
  · intro s
    exact (pathHashSpec_eq_foldl (strToLowercase s) 0).symm
  · intro h c l
    rw [pathHashSpec_append]
    rfl

/-- C9 counterexample: `from_memory_mapped_file` accepts offset 0 and length 1
over an empty map, and `content()` on the resulting entry panics (aborts), so
content retrieval is not infallible for the `MemoryMapped` variant. -/
theorem C9_counterexample_mmap_content_panics :
    (PackageEntry.from_memory_mapped_file [97] [] 0 1).content (fun _ => .absent) =
      .panic := by
  decide

/-- C9 (amended): `content()` always succeeds for an `InMemory` source, and
for a `MemoryMapped` source whenever `offset + length` is within the map;
every failing or aborting `content()` call comes from a `FileOnDisk` source or
from a `MemoryMapped` source whose range exceeds the map. -/
theorem C9_content_fallibility (fs : FileSystem) (pth content mmap : List Nat)
    (offset length : Nat) (hrange : offset + length ≤ mmap.length) :
    (PackageEntry.from_byte_array pth content).content fs = .ok content ∧
    (PackageEntry.from_memory_mapped_file pth mmap offset length).content fs =
      .ok ((mmap.drop offset).take length) ∧
    (∀ e : PackageEntry, (e.content fs).isOk = false →
      (∃ q, e.source = .fileOnDisk q) ∨
      ∃ m o l, e.source = .memoryMappedFile m o l ∧ m.length < o + l) := by
  refine ⟨rfl, ?_, ?_⟩
  · simp [PackageEntry.from_memory_mapped_file, PackageEntry.content, hrange]
  · intro e he
    match hsrc : e.source with
    | .fileOnDisk q => exact Or.inl ⟨q, rfl⟩
    | .inMemoryByteArray c =>
      simp [PackageEntry.content, hsrc, RResult.isOk] at he
    | .memoryMappedFile m o l =>
      refine Or.inr ⟨m, o, l, rfl, ?_⟩
      by_contra hlt
      simp [PackageEntry.content, hsrc, Nat.le_of_not_lt hlt, RResult.isOk] at he

/-- C9 witness: instantiates the amended fallibility theorem at a concrete
in-memory entry. -/
theorem C9_content_fallibility_witness :
    (PackageEntry.from_byte_array [97] [1, 2]).content (fun _ => .absent) = .ok [1, 2] :=
  (C9_content_fallibility (fun _ => .absent) [97] [1, 2] [5, 6, 7] 1 2 (by decide)).1

/-- C2: the code violates the index/entries agreement invariant.  Starting
from an empty package, adding entries under paths "a" and "b" yields a
well-formed package, but `remove_entry "a"` removes only the entry while the
source never touches the index: afterwards "a" is still indexed
(`entry_exists` still reports it), "b" is indexed at position 1 although the
sole remaining entry sits at position 0, and the invariant is broken. -/
theorem C2_remove_entry_breaks_invariant :
    (((Package.new.add_entry (PackageEntry.from_byte_array [97] [1])).2.add_entry
        (PackageEntry.from_byte_array [98] [2])).2).Wf ∧
    (((Package.new.add_entry (PackageEntry.from_byte_array [97] [1])).2.add_entry
        (PackageEntry.from_byte_array [98] [2])).2).remove_entry [97] =
      some (⟨[PackageEntry.from_byte_array [98] [2]], [([97], 0), ([98], 1)]⟩, true) ∧
    (Package.mk [PackageEntry.from_byte_array [98] [2]]
        [([97], 0), ([98], 1)]).entry_exists [97] = true ∧
    mapLookup (Package.mk [PackageEntry.from_byte_array [98] [2]]
        [([97], 0), ([98], 1)]).inner_path_to_entry_index [98] = some 1 ∧
    (Package.mk [PackageEntry.from_byte_array [98] [2]]
        [([97], 0), ([98], 1)]).entries.length = 1 ∧
    ¬ (Package.mk [PackageEntry.from_byte_array [98] [2]]
        [([97], 0), ([98], 1)]).Wf := by
  decide

/-- C5: under the package invariant, `put_entry` never fails; on a path
already present it replaces the entry in place at that path's indexed
position, keeping the entry count and every other position unchanged, and on
an absent path it behaves exactly like a successful `add_entry`
(append and index). -/
theorem C5_put_entry_upsert (p : Package) (e : PackageEntry) (hwf : p.Wf) :
    (∃ p', p.put_entry e = some p') ∧
    (∀ i, mapLookup p.inner_path_to_entry_index e.inner_path = some i →
      (∃ h : i < p.entries.length, (p.entries.get ⟨i, h⟩).inner_path = e.inner_path) ∧
      p.put_entry e = some ⟨p.entries.set i e, p.inner_path_to_entry_index⟩ ∧
      (p.entries.set i e).length = p.entries.length ∧
      (∀ j, j ≠ i → (p.entries.set i e).get? j = p.entries.get? j)) ∧
    (mapLookup p.inner_path_to_entry_index e.inner_path = none →
      p.put_entry e = some (p.append_new_entry e) ∧
      p.add_entry e = (.ok (), p.append_new_entry e)) := by
  have hcase : ∀ i, mapLookup p.inner_path_to_entry_index e.inner_path = some i →
      (∃ h : i < p.entries.length, (p.entries.get ⟨i, h⟩).inner_path = e.inner_path) ∧
      p.put_entry e = some ⟨p.entries.set i e, p.inner_path_to_entry_index⟩ ∧
      (p.entries.set i e).length = p.entries.length ∧
      (∀ j, j ≠ i → (p.entries.set i e).get? j = p.entries.get? j) := by
    intro i hi
    obtain ⟨hlt, hpath⟩ := hwf.1 _ (mapLookup_mem hi)
    refine ⟨⟨hlt, hpath⟩, ?_, by simp, fun j hj => List.get?_set_ne _ _ (Ne.symm hj)⟩
    unfold Package.put_entry
    rw [hi]
    simp only [hlt, if_true]
    rw [eraseIdx_insertIdx_eq_set hlt]
  refine ⟨?_, hcase, ?_⟩
  · match hl : mapLookup p.inner_path_to_entry_index e.inner_path with
    | some i => exact ⟨_, ((hcase i hl).2.1)⟩
    | none => exact ⟨_, by unfold Package.put_entry; rw [hl]⟩
  · intro hnone
    constructor
    · unfold Package.put_entry
      rw [hnone]
    · unfold Package.add_entry
      simp [mapContainsKey, hnone]

/-- C5 witness: applies the upsert theorem to a concrete two-entry package
and an entry replacing the first path. -/
theorem C5_put_entry_upsert_witness :
    (((Package.new.add_entry (PackageEntry.from_byte_array [97] [1])).2.add_entry
        (PackageEntry.from_byte_array [98] [2])).2).put_entry
      (PackageEntry.from_byte_array [97] [9]) =
      some ⟨[PackageEntry.from_byte_array [97] [9],
             PackageEntry.from_byte_array [98] [2]], [([97], 0), ([98], 1)]⟩ :=
  ((C5_put_entry_upsert _ (PackageEntry.from_byte_array [97] [9]) (by decide)).2.1
    0 (by decide)).2.1

/-- C6: under the package invariant, `add_entry` with an already-present inner
path returns the path-conflict error carrying that path and leaves the package
completely unchanged (entry count, iteration order, index and every content
lookup included). -/
theorem C6_add_entry_duplicate (p : Package) (e : PackageEntry) (hwf : p.Wf)
    (hmem : e.inner_path ∈ p.inner_paths) :
    (p.add_entry e).1 = .error e.inner_path ∧
    (p.add_entry e).2 = p ∧
    (p.add_entry e).2.entry_count = p.entry_count ∧
    (p.add_entry e).2.inner_paths = p.inner_paths ∧
    (∀ fs pth, (p.add_entry e).2.content_by_path fs pth = p.content_by_path fs pth) := by
  have hsome := lookup_isSome_of_mem_paths hwf hmem
  have hcontains : mapContainsKey p.inner_path_to_entry_index e.inner_path = true := hsome
  unfold Package.add_entry
  simp [hcontains]

/-- C6 witness: applies the duplicate-add theorem to a concrete package that
already holds path "a". -/
theorem C6_add_entry_duplicate_witness :
    ((((Package.new.add_entry (PackageEntry.from_byte_array [97] [1])).2.add_entry
        (PackageEntry.from_byte_array [98] [2])).2).add_entry
      (PackageEntry.from_byte_array [97] [9])).1 = .error [97] :=
  (C6_add_entry_duplicate _ (PackageEntry.from_byte_array [97] [9]) (by decide)
    (by decide)).1

/-- `read_null_terminated_string` returns exactly the bytes before the first
null terminator. -/
theorem read_null_terminated_of_no_zero (s rest : List Nat) (h : ∀ c ∈ s, c ≠ 0) :
    read_null_terminated_string (s ++ 0 :: rest) = .ok s := by
  induction s with
  | nil => simp [read_null_terminated_string]
  | cons b bs ih =>
    simp only [List.cons_append, read_null_terminated_string]
    rw [if_neg (h b (by simp))]
    rw [List.append_eq, ih (fun c hc => h c (by simp [hc]))]
    rfl

/-- C8: DAT decode failures abort with a panic instead of a returned error.
The first input is a well-formed one-entry DAT image whose path byte is the
invalid UTF-8 byte 0xFF: `read_entry` produces the UTF-8 decode error the
error type provides, but the builder loop's `expect` panics with it.  The
second input is truncated (the entry record extends past the end), which
panics in the slicing.  In both cases no package is returned, but neither is
the claimed fatal read error. -/
theorem C8_dat_decode_failure_panics :
    dat.read_from_input [1, 0, 0, 0, 8, 0, 0, 0, 0, 0, 0, 0, 1, 0, 0, 0, 255] = .panic ∧
    dat.read_entry [1, 0, 0, 0, 8, 0, 0, 0, 0, 0, 0, 0, 1, 0, 0, 0, 255] 8 =
      .err .utf8DecodeError ∧
    dat.read_from_input [1, 0, 0, 0, 8, 0, 0, 0, 0, 0] = .panic := by
  refine ⟨by decide, by decide, by decide⟩

/-- C7 counterexample: a package holding the single entry `"abc" ↦ "x"` has a
4-byte path region (already 4-aligned), so the claim's
`padding to the next 4-byte boundary` predicts a data region start of
`16 + 20·1 + 4 + 0 = 40`; the writer instead rebases the entry's data offset
to 44 (emitting 4 padding bytes) and produces a 45-byte file. -/
theorem C7_counterexample_aligned_padding :
    RResult.map (fun o => (readU32BE o.data 24, o.data.length))
      (pkg.write_package_to_output
        ((Package.new.add_entry (PackageEntry.from_byte_array [97, 98, 99] [120])).2)
        (fun _ => FsFile.absent) ⟨0, []⟩) = .ok (44, 45) ∧
    pkg.data_region_offset 1 4 = 44 ∧
    16 + 20 * 1 + 4 + (4 - 4 % 4) % 4 = 40 := by
  refine ⟨by decide, by decide, by decide⟩

/-- C7 (amended): the data region start used to rebase every entry's data
offset (and as the seek target) is
`header (16) + entry headers (20·n) + path region + (4 - path_region_size % 4)`:
this agrees with "padding to the next 4-byte boundary" whenever the path
region size is not a multiple of 4, while for a 4-aligned path region the
writer pads a full 4 bytes instead of 0. -/
theorem C7_data_region_offset (n prs : Nat) :
    (prs % 4 ≠ 0 →
      pkg.data_region_offset n prs = 16 + 20 * n + prs + (4 - prs % 4) % 4) ∧
    (prs % 4 = 0 → pkg.data_region_offset n prs = 16 + 20 * n + prs + 4) := by
  unfold pkg.data_region_offset pkg.INDEX_SIZE pkg.ENTRY_SIZE
  constructor
  · intro h
    omega
  · intro h
    omega

/-- C7 witness: the amended formula at one entry with a 5-byte path region
(the spec's minimal PKG scenario: padding 3, data region at 44). -/
theorem C7_data_region_offset_witness :
    pkg.data_region_offset 1 5 = 16 + 20 * 1 + 5 + (4 - 5 % 4) % 4 :=
  (C7_data_region_offset 1 5).1 (by decide)

/-- C10 counterexample: the claim's ASCII half fails for a path containing
the (ASCII) NUL character.  Writing the package `{"\0" ↦ "x"}` in PKG format
and reading it back succeeds — the written path region is `[0, 0]`, the
reader stops at the first null, decodes the empty path, and the hashes agree
(both are hashes that start from 0) — so the round trip returns a package
whose sole inner path is `""`, not the written `"\0"`. -/
theorem C10_counterexample_nul_path :
    RResult.map (fun o => RResult.map Package.inner_paths (pkg.read_package_from_file o.data))
      (pkg.write_package_to_output
        ((Package.new.add_entry (PackageEntry.from_byte_array [0] [120])).2)
        (fun _ => FsFile.absent) ⟨0, []⟩) = .ok (.ok [[]]) ∧
    ((Package.new.add_entry (PackageEntry.from_byte_array [0] [120])).2).inner_paths =
      [[0]] := by
  refine ⟨by decide, by decide⟩

/-- C10 (amended): the PKG writer emits a path's UTF-8 bytes followed by a
null terminator while the reader takes every byte before the null as one
character.  For every path of nonzero ASCII characters the decoded path
equals the written one; for the non-ASCII one-character path U+1000 a PKG
write followed by a read fails the hash comparison: the reader decodes the
three UTF-8 bytes as the three-character path `[225, 128, 128]`, whose
recomputed hash differs from the stored hash 4096 of the original path. -/
theorem C10_pkg_path_codec :
    (∀ path rest : List Nat, (∀ c ∈ path, 1 ≤ c ∧ c < 128) →
      read_null_terminated_string (utf8Encode path ++ [0] ++ rest) = .ok path) ∧
    RResult.map (fun o => pkg.read_package_from_file o.data)
      (pkg.write_package_to_output
        ((Package.new.add_entry (PackageEntry.from_byte_array [4096] [120])).2)
        (fun _ => FsFile.absent) ⟨0, []⟩) =
      .ok (.err (.pathHashMismatchError [225, 128, 128] 4096 943718532)) := by
  constructor
  · intro path rest hp
    rw [utf8Encode_ascii path (fun c hc => (hp c hc).2)]
    rw [List.append_assoc, List.singleton_append]
    exact read_null_terminated_of_no_zero path rest (fun c hc => by
      have := (hp c hc).1
      omega)
  · decide

/-- C10 witness: the decoded path equals the written path for the concrete
ASCII path "ab" with trailing region bytes. -/
theorem C10_pkg_path_codec_witness :
    read_null_terminated_string (utf8Encode [97, 98] ++ [0] ++ [7]) = .ok [97, 98] :=
  C10_pkg_path_codec.1 [97, 98] [7] (by decide)

/-- A deflated entry header (bit 0 of the options byte set) aborts the header
loop with the unsupported-deflate error, provided every earlier header is
clean. -/
theorem pkgReadHeaders_deflated_err (input : List Nat) (n : Nat) (pos i : Nat)
    (hi : i < n)
    (hprev : ∀ j, j < i → byteAt input (pos + 20 * j + 4) % 2 = 0)
    (hbad : byteAt input (pos + 20 * i + 4) % 2 = 1) :
    pkgReadHeaders input pos n = .err .unsupportedDeflatedEntryError := by
  induction n generalizing pos i with
  | zero => omega
  | succ m ih =>
    cases i with
    | zero =>
      have h4 : byteAt input (pos + 4) % 2 = 1 := by
        have := hbad
        rw [show pos + 20 * 0 + 4 = pos + 4 by omega] at this
        exact this
      simp only [pkgReadHeaders, pkg.read_entry_header]
      rw [if_pos h4]
    | succ i' =>
      have h4 : byteAt input (pos + 4) % 2 = 0 := by
        have := hprev 0 (by omega)
        rw [show pos + 20 * 0 + 4 = pos + 4 by omega] at this
        exact this
      simp only [pkgReadHeaders, pkg.read_entry_header]
      rw [if_neg (by omega)]
      rw [ih (pos + 20) i' (by omega)
          (fun j hj => by
            have := hprev (j + 1) (by omega)
            rw [show pos + 20 * (j + 1) + 4 = pos + 20 + 20 * j + 4 by omega] at this
            exact this)
          (by
            have := hbad
            rw [show pos + 20 * (i' + 1) + 4 = pos + 20 + 20 * i' + 4 by omega] at this
            exact this)]
      rfl

/-- The resolution loop over a concatenation runs the first part and, when it
succeeds, continues with the second from the resulting package. -/
theorem pkgResolveEntries_append (mmap region : List Nat)
    (bs1 bs2 : List PkgEntryBuilder) (p : Package) :
    pkgResolveEntries mmap region (bs1 ++ bs2) p =
      RResult.bind (pkgResolveEntries mmap region bs1 p)
        (fun q => pkgResolveEntries mmap region bs2 q) := by
  induction bs1 generalizing p with
  | nil => rfl
  | cons b bs ih =>
    simp only [List.cons_append, pkgResolveEntries]
    cases hb : b.read_inner_path region with
    | err e => rfl
    | panic => rfl
    | ok s =>
      dsimp only
      rcases hadd : p.add_entry
          (PackageEntry.from_memory_mapped_file s mmap b.data_offset b.data_size)
        with ⟨r, p'⟩
      cases r with
      | error pth => rfl
      | ok u => exact ih p'

/-- A hash mismatch on the head builder aborts the resolution loop with the
mismatch error carrying the decoded path, the stored hash and the recomputed
one. -/
theorem pkgResolveEntries_hash_err (mmap region : List Nat) (b : PkgEntryBuilder)
    (post : List PkgEntryBuilder) (q : Package) (s : List Nat)
    (hs : read_null_terminated_string (region.drop b.inner_path_offset) = .ok s)
    (hmm : calculate_path_hash s ≠ b.inner_path_hash) :
    pkgResolveEntries mmap region (b :: post) q =
      .err (.pathHashMismatchError s b.inner_path_hash (calculate_path_hash s)) := by
  simp only [pkgResolveEntries, PkgEntryBuilder.read_inner_path]
  rw [hs]
  simp only [if_pos hmm]

/-- The first divergent signature byte produces the mismatch error in the
byte-by-byte check. -/
theorem pkgCheckSigAux_mismatch (input : List Nat) (i : Nat) (hi : i < 4)
    (hprev : ∀ j, j < i → byteAt input j = byteAt PKG_SIGNATURE j)
    (hbad : byteAt input i ≠ byteAt PKG_SIGNATURE i) :
    pkgCheckSigAux input 0 PKG_SIGNATURE =
      some (.signatureMismatchError (byteAt PKG_SIGNATURE i) (byteAt input i)) := by
  interval_cases i
  · simp only [byteAt] at hbad ⊢
    simp [pkgCheckSigAux, PKG_SIGNATURE, byteAt] at hbad ⊢
    simp [hbad]
  · have h0 := hprev 0 (by omega)
    simp [pkgCheckSigAux, PKG_SIGNATURE, byteAt] at h0 hbad ⊢
    simp [h0, hbad]
  · have h0 := hprev 0 (by omega)
    have h1 := hprev 1 (by omega)
    simp [pkgCheckSigAux, PKG_SIGNATURE, byteAt] at h0 h1 hbad ⊢
    simp [h0, h1, hbad]
  · have h0 := hprev 0 (by omega)
    have h1 := hprev 1 (by omega)
    have h2 := hprev 2 (by omega)
    simp [pkgCheckSigAux, PKG_SIGNATURE, byteAt] at h0 h1 h2 hbad ⊢
    simp [h0, h1, h2, hbad]

/-- When every header check passes and both regions are in bounds, the reader
is exactly the resolution loop over the parsed builders. -/
theorem pkg_read_unfold (input : List Nat)
    (hlen : 16 ≤ input.length)
    (hsig : pkgCheckSigAux input 0 PKG_SIGNATURE = none)
    (hh : readU16BE input 4 = 16)
    (he : readU16BE input 6 = 20)
    (hbound : 16 + 20 * readU32BE input 8 ≤ input.length)
    (builders : List PkgEntryBuilder)
    (hbuilders : pkgReadHeaders input 16 (readU32BE input 8) = .ok builders)
    (hbound2 : 16 + 20 * readU32BE input 8 + readU32BE input 12 ≤ input.length) :
    pkg.read_package_from_file input =
      pkgResolveEntries input
        ((input.drop (16 + 20 * readU32BE input 8)).take (readU32BE input 12))
        builders Package.new := by
  unfold pkg.read_package_from_file
  simp only [pkg.INDEX_SIZE, pkg.ENTRY_SIZE]
  rw [if_pos hlen, hsig]
  simp only
  rw [if_neg (by simp [hh]), if_neg (by simp [he]), if_pos hbound, hbuilders]
  simp only
  rw [if_pos hbound2]

/-- C4 counterexample: the claim quantifies over every input byte stream, but
a 1-byte stream whose only byte already differs from the signature makes the
reader panic in the `mmap[..16]` slicing instead of returning the
signature-mismatch (or any) error. -/
theorem C4_counterexample_short_input_panics :
    pkg.read_package_from_file [81] = .panic := by
  decide

/-- C4 (amended): for input streams of at least 16 bytes (with the regions a
given check reads in bounds), the PKG reader returns the specific error the
claim lists and no package: the first divergent signature byte yields
`SignatureMismatch(expected, actual)`; a header-size field ≠ 16 yields
`HeaderSizeMismatch(16, actual)`; an entry-header-size field ≠ 20 yields
`EntriesHeaderSizeMismatch(20, actual)`; the first entry header with the
deflate bit set yields the unsupported-deflate error; and the first entry
whose decoded path hashes differently from its stored hash (all earlier
entries resolving and inserting fine) yields
`PathHashMismatch(decoded path, stored, recomputed)`. -/
theorem C4_pkg_read_rejects (input : List Nat) (hlen : 16 ≤ input.length) :
    (∀ i, i < 4 → (∀ j, j < i → byteAt input j = byteAt PKG_SIGNATURE j) →
      byteAt input i ≠ byteAt PKG_SIGNATURE i →
      pkg.read_package_from_file input =
        .err (.signatureMismatchError (byteAt PKG_SIGNATURE i) (byteAt input i))) ∧
    (pkgCheckSigAux input 0 PKG_SIGNATURE = none → readU16BE input 4 ≠ 16 →
      pkg.read_package_from_file input =
        .err (.headerSizeMismatchError 16 (readU16BE input 4))) ∧
    (pkgCheckSigAux input 0 PKG_SIGNATURE = none → readU16BE input 4 = 16 →
      readU16BE input 6 ≠ 20 →
      pkg.read_package_from_file input =
        .err (.entriesHeaderSizeMismatchError 20 (readU16BE input 6))) ∧
    (pkgCheckSigAux input 0 PKG_SIGNATURE = none → readU16BE input 4 = 16 →
      readU16BE input 6 = 20 → 16 + 20 * readU32BE input 8 ≤ input.length →
      ∀ i, i < readU32BE input 8 →
        (∀ j, j < i → byteAt input (16 + 20 * j + 4) % 2 = 0) →
        byteAt input (16 + 20 * i + 4) % 2 = 1 →
        pkg.read_package_from_file input = .err .unsupportedDeflatedEntryError) ∧
    (pkgCheckSigAux input 0 PKG_SIGNATURE = none → readU16BE input 4 = 16 →
      readU16BE input 6 = 20 → 16 + 20 * readU32BE input 8 ≤ input.length →
      16 + 20 * readU32BE input 8 + readU32BE input 12 ≤ input.length →
      ∀ builders pre b post q s,
        pkgReadHeaders input 16 (readU32BE input 8) = .ok builders →
        builders = pre ++ b :: post →
        pkgResolveEntries input
          ((input.drop (16 + 20 * readU32BE input 8)).take (readU32BE input 12))
          pre Package.new = .ok q →
        read_null_terminated_string
          (((input.drop (16 + 20 * readU32BE input 8)).take (readU32BE input 12)).drop
            b.inner_path_offset) = .ok s →
        calculate_path_hash s ≠ b.inner_path_hash →
        pkg.read_package_from_file input =
          .err (.pathHashMismatchError s b.inner_path_hash (calculate_path_hash s))) := by
  refine ⟨?_, ?_, ?_, ?_, ?_⟩
  · intro i hi hprev hbad
    unfold pkg.read_package_from_file
    simp only [pkg.INDEX_SIZE]
    rw [if_pos hlen, pkgCheckSigAux_mismatch input i hi hprev hbad]
  · intro hsig hne
    unfold pkg.read_package_from_file
    simp only [pkg.INDEX_SIZE]
    rw [if_pos hlen, hsig]
    simp only
    rw [if_pos hne]
  · intro hsig hh hne
    unfold pkg.read_package_from_file
    simp only [pkg.INDEX_SIZE, pkg.ENTRY_SIZE]
    rw [if_pos hlen, hsig]
    simp only
    rw [if_neg (by simp [hh]), if_pos hne]
  · intro hsig hh he hbound i hi hprev hbad
    unfold pkg.read_package_from_file
    simp only [pkg.INDEX_SIZE, pkg.ENTRY_SIZE]
    rw [if_pos hlen, hsig]
    simp only
    rw [if_neg (by simp [hh]), if_neg (by simp [he]), if_pos hbound,
        pkgReadHeaders_deflated_err input (readU32BE input 8) 16 i hi hprev hbad]
  · intro hsig hh he hb1 hb2 builders pre b post q s hbuilders hdecomp hpre hs hmm
    rw [pkg_read_unfold input hlen hsig hh he hb1 builders hbuilders hb2, hdecomp,
        pkgResolveEntries_append, hpre]
    exact pkgResolveEntries_hash_err input _ b post q s hs hmm

/-- C4 witness: the amended rejection theorem applied to the 16-zero-byte
stream, whose first byte 0 diverges from the expected 80. -/
theorem C4_pkg_read_rejects_witness :
    pkg.read_package_from_file
        [0, 0, 0, 0, 0, 0, 0, 0, 0, 0, 0, 0, 0, 0, 0, 0] =
      .err (.signatureMismatchError 80 0) :=
  (C4_pkg_read_rejects [0, 0, 0, 0, 0, 0, 0, 0, 0, 0, 0, 0, 0, 0, 0, 0]
      (by decide)).1 0 (by decide) (by intro j hj; omega) (by decide)

/-! ## The DAT writer produces exactly the described layout -/

theorem u32le_mod (n : Nat) : u32le (n % 4294967296) = u32le n := by
  unfold u32le
  rw [Nat.mod_mod_of_dvd n dvd_rfl]

theorem datEntryRecord_length (p c : List Nat) :
    (datEntryRecord p c).length = 8 + (utf8Encode p).length + c.length := by
  simp [datEntryRecord, u32le]
  omega

theorem entryContents_length (fs : FileSystem) (es : List PackageEntry)
    (cs : List (List Nat)) (h : entryContents fs es = some cs) :
    cs.length = es.length := by
  induction es generalizing cs with
  | nil =>
    simp [entryContents] at h
    simp [← h]
  | cons e rest ih =>
    simp only [entryContents] at h
    cases hc : e.content fs with
    | ok c =>
      rw [hc] at h
      cases hr : entryContents fs rest with
      | some cs' =>
        rw [hr] at h
        simp only [Option.map] at h
        obtain rfl : cs = c :: cs' := (Option.some.inj h).symm
        simp [ih cs' hr]
      | none => rw [hr] at h; simp [Option.map] at h
    | err e' => rw [hc] at h; simp at h
    | panic => rw [hc] at h; simp at h

theorem dat_write_entry_ok (e : PackageEntry) (fs : FileSystem) (s : OutStream)
    (c : List Nat) (hc : e.content fs = .ok c) :
    dat.write_entry e fs s = .ok (s.writeBytes (datEntryRecord e.inner_path c)) := by
  unfold dat.write_entry
  rw [hc]
  simp only [writeBytes_writeBytes, datEntryRecord, List.append_assoc]

theorem datWriteEntries_ok (fs : FileSystem) (es : List PackageEntry)
    (cs : List (List Nat)) (hcs : entryContents fs es = some cs)
    (s : OutStream) (offs : List Nat) :
    datWriteEntries fs es s offs =
      some (s.writeBytes (datRecords ((es.map (·.inner_path)).zip cs)).flatten,
        offs ++ (datOffsets s.pos (datRecords ((es.map (·.inner_path)).zip cs))).map
          (· % 4294967296)) := by
  induction es generalizing cs s offs with
  | nil =>
    simp only [entryContents, Option.some.injEq] at hcs
    subst hcs
    simp [datWriteEntries, datRecords, datOffsets, OutStream.writeBytes]
  | cons e rest ih =>
    simp only [entryContents] at hcs
    cases hc : e.content fs with
    | ok c =>
      rw [hc] at hcs
      cases hr : entryContents fs rest with
      | some cs' =>
        rw [hr] at hcs
        simp only [Option.map] at hcs
        obtain rfl : cs = c :: cs' := (Option.some.inj hcs).symm
        simp only [datWriteEntries, dat_write_entry_ok e fs s c hc]
        rw [ih cs' hr]
        have hrec : datRecords (((e :: rest).map (·.inner_path)).zip (c :: cs')) =
            datEntryRecord e.inner_path c ::
              datRecords ((rest.map (·.inner_path)).zip cs') := by
          simp [datRecords]
        rw [hrec]
        rw [show (datEntryRecord e.inner_path c ::
              datRecords ((rest.map (·.inner_path)).zip cs')).flatten =
            datEntryRecord e.inner_path c ++
              (datRecords ((rest.map (·.inner_path)).zip cs')).flatten by simp]
        rw [writeBytes_writeBytes, writeBytes_pos]
        rw [show datOffsets s.pos (datEntryRecord e.inner_path c ::
              datRecords ((rest.map (·.inner_path)).zip cs')) =
            s.pos :: datOffsets (s.pos + (datEntryRecord e.inner_path c).length)
              (datRecords ((rest.map (·.inner_path)).zip cs')) from rfl]
        simp
      | none => rw [hr] at hcs; simp [Option.map] at hcs
    | err e' => rw [hc] at hcs; simp at hcs
    | panic => rw [hc] at hcs; simp at hcs

theorem flatMap_u32le_length (offs : List Nat) : (offs.flatMap u32le).length = 4 * offs.length := by
  induction offs with
  | nil => rfl
  | cons o os ih => simp [u32le, ih]; omega

theorem flatMap_u32le_mod (offs : List Nat) :
    (offs.map (· % 4294967296)).flatMap u32le = offs.flatMap u32le := by
  induction offs with
  | nil => rfl
  | cons o os ih => simp [u32le_mod, ih]

theorem foldl_writeBytes_eq (offs : List Nat) (s : OutStream) :
    offs.foldl (fun t off => t.writeBytes (u32le off)) s = s.writeBytes (offs.flatMap u32le) := by
  induction offs generalizing s with
  | nil => simp [OutStream.writeBytes]
  | cons o os ih =>
    simp only [List.foldl_cons, List.flatMap_cons, ih, writeBytes_writeBytes]

theorem datOffsets_length (start : Nat) (rs : List (List Nat)) :
    (datOffsets start rs).length = rs.length := by
  induction rs generalizing start with
  | nil => rfl
  | cons r rest ih => simp [datOffsets, ih]

theorem writeBytes_pad' (bs : List Nat) (p : Nat) (d : List Nat)
    (h : d.length ≤ p) (hbs : bs ≠ []) :
    OutStream.writeBytes ⟨p, d⟩ bs =
      ⟨p + bs.length, d ++ List.replicate (p - d.length) 0 ++ bs⟩ := by
  cases bs with
  | nil => exact absurd rfl hbs
  | cons b rest =>
    rw [writeBytes_pad b rest p d h]
    simp [List.append_assoc]
    omega

theorem datRecords_length (pcs : List (List Nat × List Nat)) :
    (datRecords pcs).length = pcs.length := by
  simp [datRecords]

/-- The DAT writer on any package whose contents are all available emits
exactly `datLayout` of its (path, content) pairs, finishing with the write
position just past the offset table. -/
theorem dat_write_spec (p : Package) (fs : FileSystem) (cs : List (List Nat))
    (hcs : entryContents fs p.entries = some cs) :
    dat.write_package_to_output p fs ⟨0, []⟩ =
      .ok ⟨4 + 4 * p.entries.length, datLayout (p.inner_paths.zip cs)⟩ := by
  have hlen : cs.length = p.entries.length := entryContents_length fs p.entries cs hcs
  unfold dat.write_package_to_output
  dsimp only
  have h1 : OutStream.writeBytes ⟨0, []⟩ (u32le p.entry_count) = ⟨4, u32le p.entry_count⟩ := by
    have := writeBytes_append (u32le p.entry_count) []
    simpa [u32le] using this
  rw [h1]
  simp only [OutStream.seek]
  rw [datWriteEntries_ok fs p.entries cs hcs _ []]
  simp only [List.nil_append]
  set R := datRecords ((p.entries.map (·.inner_path)).zip cs) with hR
  have hRlen : R.length = p.entries.length := by
    rw [hR, datRecords_length, List.length_zip, List.length_map, hlen]
    omega
  have hpcs : p.inner_paths.zip cs = (p.entries.map (·.inner_path)).zip cs := rfl
  cases hRnil : R with
  | nil =>
    have hn : p.entries.length = 0 := by rw [← hRlen, hRnil]; rfl
    have hcs0 : cs = [] := List.eq_nil_of_length_eq_zero (by omega)
    subst hcs0
    simp only [List.flatten_nil, datOffsets, List.map_nil, List.foldl_nil,
      OutStream.writeBytes, OutStream.seek]
    refine congrArg RResult.ok (congrArg₂ OutStream.mk ?_ ?_)
    · have : p.entries.length = 0 := hn
      omega
    · simp [datLayout, datRecords, datOffsets, List.zip_nil_right, Package.entry_count, hn,
        OutStream.writeBytes]
  | cons r0 rrest =>
    rw [← hRnil]
    have hr0ne : r0 ≠ [] := by
      have hr0 : r0 ∈ R := by rw [hRnil]; exact List.mem_cons_self _ _
      rw [hR] at hr0
      obtain ⟨pc, _, hpc⟩ := List.mem_map.mp hr0
      rw [← hpc]
      unfold datEntryRecord
      simp [u32le]
    have hflatnil : R.flatten ≠ [] := by
      rw [hRnil, List.flatten_cons]
      intro habs
      exact hr0ne (List.append_eq_nil.mp habs).1
    have hdlen : (u32le p.entry_count).length = 4 := by simp [u32le]
    have hple : (u32le p.entry_count).length ≤ 4 + 4 * p.entry_count := by
      rw [hdlen]; omega
    rw [writeBytes_pad' R.flatten (4 + 4 * p.entry_count) (u32le p.entry_count) hple hflatnil]
    simp only [OutStream.seek]
    rw [foldl_writeBytes_eq, flatMap_u32le_mod]
    have hcount : p.entry_count = p.entries.length := rfl
    have hpad : 4 + 4 * p.entry_count - (u32le p.entry_count).length = 4 * p.entries.length := by
      rw [hdlen, hcount]; omega
    rw [hpad]
    have hdata_len : (u32le p.entry_count ++ List.replicate (4 * p.entries.length) 0 ++
        R.flatten).length = 4 + 4 * p.entries.length + R.flatten.length := by
      simp [hdlen] <;> omega
    have hoverwrite := writeBytes_overwrite ((datOffsets (4 + 4 * p.entry_count) R).flatMap u32le)
      4 (u32le p.entry_count ++ List.replicate (4 * p.entries.length) 0 ++ R.flatten)
      (by
        rw [hdata_len, flatMap_u32le_length, datOffsets_length, hRlen]
        omega)
    rw [hoverwrite]
    have hofflen : ((datOffsets (4 + 4 * p.entry_count) R).flatMap u32le).length =
        4 * p.entries.length := by
      rw [flatMap_u32le_length, datOffsets_length, hRlen]
    refine congrArg RResult.ok (congrArg₂ OutStream.mk ?_ ?_)
    · rw [hofflen]
    · have htake : (u32le p.entry_count ++ List.replicate (4 * p.entries.length) 0 ++
          R.flatten).take 4 = u32le p.entry_count := by
        rw [List.append_assoc, ← hdlen, List.take_left]
      have hdrop : (u32le p.entry_count ++ List.replicate (4 * p.entries.length) 0 ++
          R.flatten).drop (4 + 4 * p.entries.length) = R.flatten := by
        rw [show (4 : Nat) + 4 * p.entries.length =
            (u32le p.entry_count ++ List.replicate (4 * p.entries.length) 0).length by
            simp [hdlen]]
        exact List.drop_left _ _
      rw [hofflen, htake, hdrop]
      unfold datLayout
      rw [hpcs]
      rw [show ((p.entries.map (·.inner_path)).zip cs).length = p.entry_count by
        simp [hlen, Package.entry_count]]

/-! ## Index-map facts for the reader's insertion loop -/

theorem mapInsert_eq_append (m : List (List Nat × Nat)) (k : List Nat) (v : Nat)
    (h : mapContainsKey m k = false) : mapInsert m k v = m ++ [(k, v)] := by
  induction m with
  | nil => rfl
  | cons kv rest ih =>
    obtain ⟨k', v'⟩ := kv
    by_cases hk : k' = k
    · exfalso
      subst hk
      simp [mapContainsKey, mapLookup] at h
    · simp only [mapInsert, if_neg hk, List.cons_append]
      rw [ih (by simpa [mapContainsKey, mapLookup, hk] using h)]

theorem mapLookup_append_single (m : List (List Nat × Nat)) (k key : List Nat) (v : Nat) :
    mapLookup (m ++ [(k, v)]) key =
      match mapLookup m key with
      | some w => some w
      | none => if k = key then some v else none := by
  induction m with
  | nil => rfl
  | cons kv rest ih =>
    obtain ⟨k', v'⟩ := kv
    by_cases hk : k' = key
    · simp [mapLookup, hk]
    · simp [mapLookup, hk, ih]

theorem mapContainsKey_append_single_false (m : List (List Nat × Nat)) (k key : List Nat)
    (v : Nat) (h1 : mapContainsKey m key = false) (h2 : k ≠ key) :
    mapContainsKey (m ++ [(k, v)]) key = false := by
  simp only [mapContainsKey] at h1 ⊢
  rw [mapLookup_append_single]
  cases hl : mapLookup m key with
  | some w => rw [hl] at h1; simp at h1
  | none => simp [if_neg h2]

theorem mapContainsKey_false_not_mem (m : List (List Nat × Nat)) (k : List Nat)
    (h : mapContainsKey m k = false) : k ∉ m.map Prod.fst := by
  induction m with
  | nil => simp
  | cons kv rest ih =>
    obtain ⟨k', v'⟩ := kv
    by_cases hk : k' = k
    · exfalso
      subst hk
      simp [mapContainsKey, mapLookup] at h
    · simp only [List.map_cons, List.mem_cons]
      rintro (h1 | h1)
      · exact hk h1.symm
      · exact ih (by simpa [mapContainsKey, mapLookup, hk] using h) h1

theorem new_wf : Package.new.Wf := by
  refine ⟨?_, ?_, ?_⟩
  · intro kv hkv
    simp [Package.new] at hkv
  · intro i
    exact absurd i.isLt (by simp [Package.new])
  · simp [Package.new]

theorem append_new_entry_wf (p : Package) (e : PackageEntry) (hwf : p.Wf)
    (hfresh : mapContainsKey p.inner_path_to_entry_index e.inner_path = false) :
    (p.append_new_entry e).Wf := by
  obtain ⟨hw1, hw2, hw3⟩ := hwf
  unfold Package.append_new_entry
  rw [mapInsert_eq_append _ _ _ hfresh]
  refine ⟨?_, ?_, ?_⟩
  · intro kv hkv
    simp only [List.mem_append, List.mem_singleton] at hkv
    cases hkv with
    | inl h =>
      obtain ⟨hlt, hpath⟩ := hw1 kv h
      refine ⟨by simp; omega, ?_⟩
      rw [List.get_eq_getElem] at hpath ⊢
      rw [List.getElem_append_left hlt]
      exact hpath
    | inr h =>
      subst h
      refine ⟨by simp, ?_⟩
      rw [List.get_eq_getElem]
      simp
  · intro i
    by_cases hi : i.val < p.entries.length
    · have hold := hw2 ⟨i.val, hi⟩
      rw [mapLookup_append_single]
      have hget : (p.entries ++ [e]).get i = p.entries.get ⟨i.val, hi⟩ := by
        rw [List.get_eq_getElem, List.get_eq_getElem]
        exact List.getElem_append_left hi
      rw [hget, hold]
    · have hlen : i.val = p.entries.length := by
        have := i.isLt
        simp at this
        omega
      have hget : (p.entries ++ [e]).get i = e := by
        rw [List.get_eq_getElem]
        rw [List.getElem_append_right (by omega)]
        simp [hlen]
      rw [hget, mapLookup_append_single]
      have hnone : mapLookup p.inner_path_to_entry_index e.inner_path = none := by
        simp only [mapContainsKey] at hfresh
        cases hl : mapLookup p.inner_path_to_entry_index e.inner_path with
        | none => rfl
        | some w => rw [hl] at hfresh; simp at hfresh
      rw [hnone]
      simp [hlen]
  · rw [List.map_append]
    simp only [List.map_cons, List.map_nil]
    rw [List.nodup_append]
    exact ⟨hw3, List.nodup_singleton _,
      by
        intro a ha hb
        simp at hb
        subst hb
        exact mapContainsKey_false_not_mem _ _ hfresh ha⟩

theorem appendAll_entries (p : Package) (es : List PackageEntry) :
    (appendAll p es).entries = p.entries ++ es := by
  induction es generalizing p with
  | nil => simp [appendAll]
  | cons e rest ih =>
    simp only [appendAll, List.foldl_cons]
    rw [show (List.foldl Package.append_new_entry (p.append_new_entry e) rest) =
        appendAll (p.append_new_entry e) rest from rfl, ih]
    simp [Package.append_new_entry]

theorem appendAll_inner_paths (p : Package) (es : List PackageEntry) :
    (appendAll p es).inner_paths = p.inner_paths ++ es.map (·.inner_path) := by
  unfold Package.inner_paths
  rw [appendAll_entries, List.map_append]

theorem appendAll_wf (es : List PackageEntry) (p : Package) (hwf : p.Wf)
    (hfresh : ∀ e ∈ es, mapContainsKey p.inner_path_to_entry_index e.inner_path = false)
    (hnodup : (es.map (·.inner_path)).Nodup) : (appendAll p es).Wf := by
  induction es generalizing p with
  | nil => exact hwf
  | cons e rest ih =>
    simp only [appendAll, List.foldl_cons]
    have hfe := hfresh e (by simp)
    refine ih (p.append_new_entry e) (append_new_entry_wf p e hwf hfe) ?_ ?_
    · intro e' he'
      have hne : e.inner_path ≠ e'.inner_path := by
        simp only [List.map_cons, List.nodup_cons] at hnodup
        intro habs
        exact hnodup.1 (habs ▸ List.mem_map_of_mem _ he')
      unfold Package.append_new_entry
      rw [mapInsert_eq_append _ _ _ hfe]
      exact mapContainsKey_append_single_false _ _ _ _
        (hfresh e' (by simp [he'])) hne
    · simp only [List.map_cons, List.nodup_cons] at hnodup
      exact hnodup.2

theorem wf_paths_nodup (p : Package) (hwf : p.Wf) : p.inner_paths.Nodup := by
  rw [List.nodup_iff_injective_get]
  intro i j hij
  unfold Package.inner_paths at hij
  have hi : i.val < p.entries.length := by
    have h := i.isLt
    unfold Package.inner_paths at h
    simpa using h
  have hj : j.val < p.entries.length := by
    have h := j.isLt
    unfold Package.inner_paths at h
    simpa using h
  rw [List.get_eq_getElem, List.get_eq_getElem, List.getElem_map, List.getElem_map] at hij
  have h1 := hwf.2.1 ⟨i.val, hi⟩
  have h2 := hwf.2.1 ⟨j.val, hj⟩
  rw [List.get_eq_getElem] at h1 h2
  rw [hij] at h1
  rw [h1] at h2
  exact Fin.ext (Option.some.inj h2.symm ▸ rfl)

/-! ## The DAT reader inverts the layout -/

theorem drop_append_add (l1 l2 : List Nat) (i : Nat) :
    (l1 ++ l2).drop (l1.length + i) = l2.drop i := by
  induction l1 with
  | nil => simp
  | cons x xs ih =>
    simp only [List.cons_append, List.length_cons]
    rw [show xs.length + 1 + i = (xs.length + i) + 1 by omega]
    simpa using ih

theorem readU32LE_append0 (l1 l2 : List Nat) :
    readU32LE (l1 ++ l2) l1.length = readU32LE l2 0 := by
  have h := readU32LE_append l1 l2 0
  simpa using h

/-- `read_entry` at the start of a record decodes exactly that record. -/
theorem dat_read_entry_spec (pre post content path : List Nat)
    (hvalid : ∀ c ∈ path, ValidChar c)
    (hclen : content.length < 4294967296)
    (hplen : (utf8Encode path).length < 4294967296) :
    dat.read_entry (pre ++ datEntryRecord path content ++ post) pre.length =
      .ok ⟨path, pre.length + 8 + (utf8Encode path).length, content.length⟩ := by
  rw [List.append_assoc]
  have hrlen := datEntryRecord_length path content
  have hlen : (pre ++ (datEntryRecord path content ++ post)).length =
      pre.length + (8 + (utf8Encode path).length + content.length) + post.length := by
    simp [hrlen]
    omega
  have e1 : readU32LE (pre ++ (datEntryRecord path content ++ post)) pre.length =
      content.length := by
    rw [show pre ++ (datEntryRecord path content ++ post) =
        pre ++ (u32le content.length ++ (u32le (utf8Encode path).length ++
          (utf8Encode path ++ (content ++ post)))) by simp [datEntryRecord]]
    rw [readU32LE_append0, readU32LE_u32le]
    exact Nat.mod_eq_of_lt hclen
  have e2 : readU32LE (pre ++ (datEntryRecord path content ++ post)) (pre.length + 4) =
      (utf8Encode path).length := by
    rw [show pre ++ (datEntryRecord path content ++ post) =
        (pre ++ u32le content.length) ++ (u32le (utf8Encode path).length ++
          (utf8Encode path ++ (content ++ post))) by simp [datEntryRecord]]
    rw [show pre.length + 4 = (pre ++ u32le content.length).length by simp [u32le]]
    rw [readU32LE_append0, readU32LE_u32le]
    exact Nat.mod_eq_of_lt hplen
  have eslice : ((pre ++ (datEntryRecord path content ++ post)).drop (pre.length + 8)).take
      (utf8Encode path).length = utf8Encode path := by
    rw [show pre ++ (datEntryRecord path content ++ post) =
        (pre ++ (u32le content.length ++ u32le (utf8Encode path).length)) ++
          (utf8Encode path ++ (content ++ post)) by simp [datEntryRecord]]
    rw [show pre.length + 8 =
        (pre ++ (u32le content.length ++ u32le (utf8Encode path).length)).length by
        simp [u32le]]
    rw [List.drop_left]
    rw [show (utf8Encode path ++ (content ++ post)).take (utf8Encode path).length =
        utf8Encode path from List.take_left _ _]
  unfold dat.read_entry
  rw [if_pos (by rw [hlen]; omega)]
  simp only [e1, e2]
  rw [if_pos (by rw [hlen]; omega)]
  rw [eslice, utf8Decode_utf8Encode path hvalid]

/-- The offset-table loop reads back exactly the offsets the writer stored. -/
theorem datReadOffsets_spec (pre rest : List Nat) (offs : List Nat)
    (hb : ∀ o ∈ offs, o < 4294967296) :
    datReadOffsets (pre ++ (offs.flatMap u32le ++ rest)) pre.length offs.length = offs := by
  induction offs generalizing pre with
  | nil => rfl
  | cons o os ih =>
    simp only [List.flatMap_cons, List.length_cons, datReadOffsets]
    refine congrArg₂ List.cons ?_ ?_
    · rw [show pre ++ ((u32le o ++ os.flatMap u32le) ++ rest) =
          pre ++ (u32le o ++ (os.flatMap u32le ++ rest)) by simp]
      rw [readU32LE_append0, readU32LE_u32le]
      exact Nat.mod_eq_of_lt (hb o (by simp))
    · rw [show pre ++ ((u32le o ++ os.flatMap u32le) ++ rest) =
          (pre ++ u32le o) ++ (os.flatMap u32le ++ rest) by simp]
      rw [show pre.length + 4 = (pre ++ u32le o).length by simp [u32le]]
      exact ih (pre ++ u32le o) (fun x hx => hb x (by simp [hx]))

theorem datOffsets_bound (rs : List (List Nat)) (start : Nat) :
    ∀ o ∈ datOffsets start rs, o ≤ start + rs.flatten.length := by
  induction rs generalizing start with
  | nil => intro o ho; simp [datOffsets] at ho
  | cons r rest ih =>
    intro o ho
    simp only [datOffsets, List.mem_cons] at ho
    cases ho with
    | inl h => subst h; omega
    | inr h =>
      have := ih (start + r.length) o h
      simp only [List.flatten_cons, List.length_append]
      omega

/-- The builder loop over the offsets of consecutive records produces the
builders of those records. -/
theorem datReadBuilders_spec (pcs : List (List Nat × List Nat)) (pre post : List Nat)
    (hv : ∀ pc ∈ pcs, (∀ c ∈ pc.1, ValidChar c) ∧ pc.2.length < 4294967296 ∧
      (utf8Encode pc.1).length < 4294967296) :
    datReadBuilders (pre ++ ((datRecords pcs).flatten ++ post))
      (datOffsets pre.length (datRecords pcs)) = some (datBuilders pre.length pcs) := by
  induction pcs generalizing pre with
  | nil => rfl
  | cons pc rest ih =>
    obtain ⟨path, c⟩ := pc
    obtain ⟨hv1, hv2, hv3⟩ := hv (path, c) (by simp)
    simp only [datRecords, List.map_cons, List.flatten_cons, datOffsets, datBuilders]
    simp only [datReadBuilders]
    rw [show List.map (fun pc => datEntryRecord pc.1 pc.2) rest = datRecords rest from rfl]
    rw [show pre ++ ((datEntryRecord path c ++ (datRecords rest).flatten) ++ post) =
        pre ++ datEntryRecord path c ++ ((datRecords rest).flatten ++ post) by simp]
    rw [dat_read_entry_spec pre ((datRecords rest).flatten ++ post) c path hv1 hv2 hv3]
    rw [show pre.length + (datEntryRecord path c).length =
        (pre ++ datEntryRecord path c).length by simp]
    rw [show pre ++ datEntryRecord path c ++ ((datRecords rest).flatten ++ post) =
        (pre ++ datEntryRecord path c) ++ ((datRecords rest).flatten ++ post) from rfl]
    rw [ih (pre ++ datEntryRecord path c) (fun x hx => hv x (by simp [hx]))]
    rfl

theorem datBuilders_inner_paths (pcs : List (List Nat × List Nat)) (start : Nat) :
    (datBuilders start pcs).map (·.inner_path) = pcs.map Prod.fst := by
  induction pcs generalizing start with
  | nil => rfl
  | cons pc rest ih =>
    obtain ⟨path, c⟩ := pc
    simp only [datBuilders, List.map_cons]
    rw [ih]

/-- Building the reader's memory-mapped entries over the layout and asking for
their content yields exactly the original contents. -/
theorem datBuilders_build_content (fs : FileSystem) (mmap : List Nat)
    (pcs : List (List Nat × List Nat)) (pre post : List Nat)
    (hmm : mmap = pre ++ ((datRecords pcs).flatten ++ post)) :
    (datBuilders pre.length pcs).map (fun b => (b.build mmap).content fs) =
      pcs.map (fun pc => RResult.ok pc.2) := by
  induction pcs generalizing pre post with
  | nil => rfl
  | cons pc rest ih =>
    obtain ⟨path, c⟩ := pc
    simp only [datBuilders, List.map_cons]
    refine congrArg₂ List.cons ?_ ?_
    · unfold DatEntryBuilder.build PackageEntry.from_memory_mapped_file PackageEntry.content
      simp only
      have hsplit : mmap =
          (pre ++ (u32le c.length ++ (u32le (utf8Encode path).length ++ utf8Encode path))) ++
            (c ++ ((datRecords rest).flatten ++ post)) := by
        rw [hmm]
        simp [datRecords, datEntryRecord]
      have hoff : pre.length + 8 + (utf8Encode path).length =
          (pre ++ (u32le c.length ++ (u32le (utf8Encode path).length ++
            utf8Encode path))).length := by
        simp [u32le]
        omega
      have hbound : pre.length + 8 + (utf8Encode path).length + c.length ≤ mmap.length := by
        rw [hsplit]
        simp [u32le]
        omega
      rw [if_pos hbound]
      rw [hsplit, hoff, List.drop_left]
      rw [show (c ++ ((datRecords rest).flatten ++ post)).take c.length = c from
        List.take_left _ _]
    · have : mmap = (pre ++ datEntryRecord path c) ++ ((datRecords rest).flatten ++ post) := by
        rw [hmm]
        simp [datRecords]
      rw [show pre.length + (datEntryRecord path c).length =
          (pre ++ datEntryRecord path c).length by simp]
      exact ih (pre ++ datEntryRecord path c) post this

theorem entryContents_get (fs : FileSystem) (es : List PackageEntry)
    (cs : List (List Nat)) (h : entryContents fs es = some cs) :
    ∀ i (h1 : i < es.length) (h2 : i < cs.length),
      (es.get ⟨i, h1⟩).content fs = .ok (cs.get ⟨i, h2⟩) := by
  induction es generalizing cs with
  | nil => intro i h1; simp at h1
  | cons e rest ih =>
    simp only [entryContents] at h
    cases hc : e.content fs with
    | ok c =>
      rw [hc] at h
      cases hr : entryContents fs rest with
      | some cs' =>
        rw [hr] at h
        simp only [Option.map] at h
        obtain rfl : cs = c :: cs' := (Option.some.inj h).symm
        intro i h1 h2
        cases i with
        | zero => simpa using hc
        | succ j =>
          have := ih cs' hr j (by simpa using h1) (by simpa using h2)
          simpa using this
      | none => rw [hr] at h; simp [Option.map] at h
    | err e' => rw [hc] at h; simp at h
    | panic => rw [hc] at h; simp at h

/-- The insertion loop with pairwise-fresh paths succeeds and appends every
built entry. -/
theorem datInsertEntries_ok (mmap : List Nat) (bs : List DatEntryBuilder) (p : Package)
    (hfresh : ∀ b ∈ bs, mapContainsKey p.inner_path_to_entry_index b.inner_path = false)
    (hnodup : (bs.map (·.inner_path)).Nodup) :
    datInsertEntries mmap bs p = .ok (appendAll p (bs.map (fun b => b.build mmap))) := by
  induction bs generalizing p with
  | nil => rfl
  | cons b rest ih =>
    have hfb := hfresh b (by simp)
    simp only [datInsertEntries, Package.add_entry]
    have hb : b.build mmap = PackageEntry.from_memory_mapped_file b.inner_path mmap
        b.data_offset b.data_size := rfl
    rw [show mapContainsKey p.inner_path_to_entry_index (b.build mmap).inner_path = false from hfb]
    simp only [Bool.false_eq_true, if_false]
    rw [ih (p.append_new_entry (b.build mmap)) ?_ ?_]
    · rfl
    · intro b' hb'
      have hne : (b.build mmap).inner_path ≠ b'.inner_path := by
        simp only [List.map_cons, List.nodup_cons] at hnodup
        intro habs
        apply hnodup.1
        rw [show (b.build mmap).inner_path = b.inner_path from rfl] at habs
        rw [habs]
        exact List.mem_map_of_mem _ hb'
      unfold Package.append_new_entry
      rw [mapInsert_eq_append _ _ _
        (show mapContainsKey p.inner_path_to_entry_index (b.build mmap).inner_path = false
          from hfb)]
      exact mapContainsKey_append_single_false _ _ _ _ (hfresh b' (by simp [hb'])) hne
    · simp only [List.map_cons, List.nodup_cons] at hnodup
      exact hnodup.2

/-- Two well-formed packages with identical path sequences and position-wise
identical contents answer every `content_by_path` query identically. -/
theorem content_by_path_congr (fs : FileSystem) (p q : Package) (hp : p.Wf) (hq : q.Wf)
    (hpaths : q.inner_paths = p.inner_paths)
    (hcontent : ∀ i (h1 : i < q.entries.length) (h2 : i < p.entries.length),
        (q.entries.get ⟨i, h1⟩).content fs = (p.entries.get ⟨i, h2⟩).content fs) :
    ∀ pth, q.content_by_path fs pth = p.content_by_path fs pth := by
  intro pth
  have hlen : q.entries.length = p.entries.length := by
    have h := congrArg List.length hpaths
    simpa [Package.inner_paths] using h
  unfold Package.content_by_path
  cases hql : mapLookup q.inner_path_to_entry_index pth with
  | some i =>
    obtain ⟨hqlt0, hqpath0⟩ := hq.1 _ (mapLookup_mem hql)
    have hqlt : i < q.entries.length := hqlt0
    have hqpath : (q.entries.get ⟨i, hqlt⟩).inner_path = pth := hqpath0
    have hplt : i < p.entries.length := by omega
    have hx := congrArg (fun l => l[i]?) hpaths
    simp only [Package.inner_paths, List.getElem?_map] at hx
    rw [List.getElem?_eq_getElem hqlt, List.getElem?_eq_getElem hplt] at hx
    simp only [Option.map_some'] at hx
    have hinj := Option.some.inj hx
    have hppath : (p.entries.get ⟨i, hplt⟩).inner_path = pth := by
      have hqg : q.entries[i].inner_path = pth := hqpath
      rw [hinj] at hqg
      exact hqg
    have hpl : mapLookup p.inner_path_to_entry_index pth = some i := by
      have h2 := hp.2.1 ⟨i, hplt⟩
      rw [hppath] at h2
      exact h2
    rw [hpl]
    dsimp only
    rw [List.get?_eq_get hqlt, List.get?_eq_get hplt]
    dsimp only
    rw [hcontent i hqlt hplt]
  | none =>
    cases hpl : mapLookup p.inner_path_to_entry_index pth with
    | none => rfl
    | some j =>
      exfalso
      obtain ⟨hplt0, hppath0⟩ := hp.1 _ (mapLookup_mem hpl)
      have hplt : j < p.entries.length := hplt0
      have hppath : (p.entries.get ⟨j, hplt⟩).inner_path = pth := hppath0
      have hqlt : j < q.entries.length := by omega
      have hx := congrArg (fun l => l[j]?) hpaths
      simp only [Package.inner_paths, List.getElem?_map] at hx
      rw [List.getElem?_eq_getElem hqlt, List.getElem?_eq_getElem hplt] at hx
      simp only [Option.map_some'] at hx
      have hinj := Option.some.inj hx
      have h2 := hq.2.1 ⟨j, hqlt⟩
      have hqpath : (q.entries.get ⟨j, hqlt⟩).inner_path = pth := by
        have hpg : p.entries[j].inner_path = pth := hppath
        rw [← hinj] at hpg
        exact hpg
      rw [hqpath, hql] at h2
      exact Option.noConfusion h2

/-- C1: DAT round trip.  For every well-formed package with valid paths and
available contents whose DAT image fits the format's 32-bit fields, writing
with the DAT codec emits exactly the image `datLayout`, reading that image
back succeeds, and the resulting package has the same inner paths in the same
order and identical content bytes under every inner path. -/
theorem C1_dat_round_trip (p : Package) (fs : FileSystem) (cs : List (List Nat))
    (hwf : p.Wf)
    (hvalid : ∀ e ∈ p.entries, ∀ c ∈ e.inner_path, ValidChar c)
    (hcs : entryContents fs p.entries = some cs)
    (hsize : (datLayout (p.inner_paths.zip cs)).length < 4294967296) :
    ∃ p' : Package,
      dat.write_package_to_output p fs ⟨0, []⟩ =
        .ok ⟨4 + 4 * p.entries.length, datLayout (p.inner_paths.zip cs)⟩ ∧
      dat.read_from_input (datLayout (p.inner_paths.zip cs)) = .ok p' ∧
      p'.inner_paths = p.inner_paths ∧
      (∀ pth, p'.content_by_path fs pth = p.content_by_path fs pth) := by
  have hlenc : cs.length = p.entries.length := entryContents_length fs p.entries cs hcs
  set pcs := p.inner_paths.zip cs with hpcs
  have hnpcs : pcs.length = p.entries.length := by
    rw [hpcs]
    simp [Package.inner_paths, hlenc]
  set R := datRecords pcs with hR
  have hRlen : R.length = p.entries.length := by rw [hR, datRecords_length, hnpcs]
  set L := datLayout pcs with hL
  have hLdef : L = u32le pcs.length ++
      ((datOffsets (4 + 4 * pcs.length) R).flatMap u32le ++ R.flatten) := by
    rw [hL]
    unfold datLayout
    rw [← hR, List.append_assoc]
  have hLlen : L.length = 4 + 4 * p.entries.length + R.flatten.length := by
    rw [hLdef, List.length_append, List.length_append, flatMap_u32le_length,
      datOffsets_length, hRlen, show (u32le pcs.length).length = 4 from rfl]
    omega
  have hn32 : p.entries.length < 4294967296 := by omega
  have hrecbound : ∀ pc ∈ pcs, (datEntryRecord pc.1 pc.2).length ≤ R.flatten.length := by
    intro pc hpc
    have hmem : datEntryRecord pc.1 pc.2 ∈ R := by
      rw [hR]
      exact List.mem_map_of_mem _ hpc
    have : (datEntryRecord pc.1 pc.2).length ∈ R.map List.length :=
      List.mem_map_of_mem _ hmem
    calc (datEntryRecord pc.1 pc.2).length
        ≤ (R.map List.length).sum := List.single_le_sum (fun x _ => Nat.zero_le x) _ this
      _ = R.flatten.length := (List.length_flatten R).symm
  have hv : ∀ pc ∈ pcs, (∀ c ∈ pc.1, ValidChar c) ∧ pc.2.length < 4294967296 ∧
      (utf8Encode pc.1).length < 4294967296 := by
    intro pc hpc
    have hrec := hrecbound pc hpc
    have hreclen := datEntryRecord_length pc.1 pc.2
    refine ⟨?_, by omega, by omega⟩
    have hmem1 : pc.1 ∈ p.inner_paths := by
      have := List.of_mem_zip (hpcs ▸ hpc)
      exact this.1
    obtain ⟨e, he, hep⟩ := List.mem_map.mp hmem1
    intro c hc
    exact hvalid e he c (hep ▸ hc)
  -- the reader, step by step
  have hcount : readU32LE L 0 = p.entries.length := by
    rw [hLdef]
    rw [readU32LE_u32le, hnpcs, Nat.mod_eq_of_lt hn32]
  have hobound : ∀ o ∈ datOffsets (4 + 4 * pcs.length) R, o < 4294967296 := by
    intro o ho
    have := datOffsets_bound R (4 + 4 * pcs.length) o ho
    rw [hnpcs] at this
    omega
  have hoffs : datReadOffsets L 4 p.entries.length =
      datOffsets (4 + 4 * pcs.length) R := by
    have hspec := datReadOffsets_spec (u32le pcs.length) R.flatten
      (datOffsets (4 + 4 * pcs.length) R) hobound
    rw [datOffsets_length, hRlen] at hspec
    rw [show (4 : Nat) = (u32le pcs.length).length by simp [u32le], hLdef]
    exact hspec
  have hmm' : L = (u32le pcs.length ++ (datOffsets (4 + 4 * pcs.length) R).flatMap u32le) ++
      (R.flatten ++ []) := by
    rw [hLdef]
    simp
  have hpre2 : (u32le pcs.length ++ (datOffsets (4 + 4 * pcs.length) R).flatMap u32le).length =
      4 + 4 * pcs.length := by
    rw [List.length_append, flatMap_u32le_length, datOffsets_length, hRlen,
      show (u32le pcs.length).length = 4 from rfl, hnpcs]
  have hbuilders : datReadBuilders L (datOffsets (4 + 4 * pcs.length) R) =
      some (datBuilders (4 + 4 * pcs.length) pcs) := by
    have hspec := datReadBuilders_spec pcs
      (u32le pcs.length ++ (datOffsets (4 + 4 * pcs.length) R).flatMap u32le)
      [] hv
    rw [hpre2, ← hR] at hspec
    rw [hmm']
    exact hspec
  set builders := datBuilders (4 + 4 * pcs.length) pcs with hbdef
  have hbpaths : builders.map (·.inner_path) = p.inner_paths := by
    rw [hbdef, datBuilders_inner_paths, hpcs]
    exact List.map_fst_zip _ _ (by simp [Package.inner_paths, hlenc])
  have hnodup : (builders.map (·.inner_path)).Nodup := by
    rw [hbpaths]
    exact wf_paths_nodup p hwf
  set es := builders.map (fun b => b.build L) with hes
  have hfresh : ∀ b ∈ builders,
      mapContainsKey Package.new.inner_path_to_entry_index b.inner_path = false :=
    fun b _ => rfl
  have hinsert : datInsertEntries L builders Package.new = .ok (appendAll Package.new es) :=
    datInsertEntries_ok L builders Package.new hfresh hnodup
  have hread : dat.read_from_input L = .ok (appendAll Package.new es) := by
    unfold dat.read_from_input dat.INDEX_SIZE
    dsimp only
    rw [hcount]
    rw [if_pos (show (4 : Nat) ≤ L.length by omega)]
    rw [if_pos (show 4 + p.entries.length * 4 ≤ L.length by omega)]
    rw [hoffs, hbuilders]
    exact hinsert
  -- properties of the resulting package
  have hesp : es.map (·.inner_path) = p.inner_paths := by
    rw [hes, List.map_map]
    exact hbpaths
  have hfresh' : ∀ e ∈ es,
      mapContainsKey Package.new.inner_path_to_entry_index e.inner_path = false :=
    fun e _ => rfl
  have hq : (appendAll Package.new es).Wf :=
    appendAll_wf es Package.new new_wf hfresh' (by rw [hesp]; exact wf_paths_nodup p hwf)
  have hqentries : (appendAll Package.new es).entries = es := by
    rw [appendAll_entries]
    rfl
  have hqpaths : (appendAll Package.new es).inner_paths = p.inner_paths := by
    rw [appendAll_inner_paths, hesp]
    rfl
  have heslen : es.length = p.entries.length := by
    have := congrArg List.length hesp
    simpa [Package.inner_paths] using this
  have hcontents := datBuilders_build_content fs L pcs
    (u32le pcs.length ++ (datOffsets (4 + 4 * pcs.length) R).flatMap u32le) []
    (by rw [hmm', hR])
  rw [hpre2, ← hbdef] at hcontents
  have hcontent : ∀ i (h1 : i < (appendAll Package.new es).entries.length)
      (h2 : i < p.entries.length),
      ((appendAll Package.new es).entries.get ⟨i, h1⟩).content fs =
        (p.entries.get ⟨i, h2⟩).content fs := by
    intro i h1 h2
    have hlapp : (appendAll Package.new es).entries.length = es.length := by
      rw [hqentries]
    have h1' : i < es.length := by omega
    have hibp : i < builders.length := by
      have hb : es.length = builders.length := by rw [hes, List.length_map]
      omega
    have hipcs : i < pcs.length := by omega
    have hics : i < cs.length := by omega
    have hizip : i < (p.inner_paths.zip cs).length := by
      rw [← hpcs]
      exact hipcs
    -- the i-th resulting entry is the i-th builder, built
    have hx1 := congrArg (fun l => l[i]?) hqentries
    dsimp only at hx1
    rw [List.getElem?_eq_getElem h1, List.getElem?_eq_getElem h1'] at hx1
    have hget : (appendAll Package.new es).entries[i] = es[i] := Option.some.inj hx1
    have hmb : i < (List.map (fun b => b.build L) builders).length := by
      rw [List.length_map]
      exact hibp
    have hesget : es[i] = (builders[i]).build L := by
      show (List.map (fun b => b.build L) builders)[i] = (builders[i]).build L
      rw [List.getElem_map]
    -- its content is the i-th pair's content bytes
    have hx := congrArg (fun l => l[i]?) hcontents
    dsimp only at hx
    rw [List.getElem?_map, List.getElem?_map, List.getElem?_eq_getElem hibp,
      List.getElem?_eq_getElem hipcs] at hx
    simp only [Option.map_some'] at hx
    have hinj := Option.some.inj hx
    have hpaths_len : i < p.inner_paths.length := by
      have hpl2 : p.inner_paths.length = p.entries.length := by
        simp [Package.inner_paths]
      omega
    have hzip : pcs[i] = (p.inner_paths[i], cs[i]) := by
      show (p.inner_paths.zip cs)[i] = (p.inner_paths[i], cs[i])
      exact List.getElem_zip
    have hpget := entryContents_get fs p.entries cs hcs i h2 hics
    rw [List.get_eq_getElem, List.get_eq_getElem] at hpget
    rw [List.get_eq_getElem, List.get_eq_getElem, hget, hesget, hinj, hzip, hpget]
  refine ⟨appendAll Package.new es, dat_write_spec p fs cs hcs, hread, hqpaths, ?_⟩
  exact content_by_path_congr fs p (appendAll Package.new es) hwf hq hqpaths hcontent

/-- Witness for C1 on a concrete two-entry package: paths "a" and "b" with
in-memory contents, every hypothesis discharged by computation. -/
theorem C1_dat_round_trip_witness :
    ∃ p' : Package,
      dat.write_package_to_output
          ⟨[PackageEntry.from_byte_array [97] [10, 20],
            PackageEntry.from_byte_array [98] [30]], [([97], 0), ([98], 1)]⟩
          (fun _ => FsFile.absent) ⟨0, []⟩ =
        .ok ⟨4 + 4 * (Package.mk
            [PackageEntry.from_byte_array [97] [10, 20],
             PackageEntry.from_byte_array [98] [30]] [([97], 0), ([98], 1)]).entries.length,
          datLayout ((Package.mk
            [PackageEntry.from_byte_array [97] [10, 20],
             PackageEntry.from_byte_array [98] [30]]
            [([97], 0), ([98], 1)]).inner_paths.zip [[10, 20], [30]])⟩ ∧
      dat.read_from_input (datLayout ((Package.mk
            [PackageEntry.from_byte_array [97] [10, 20],
             PackageEntry.from_byte_array [98] [30]]
            [([97], 0), ([98], 1)]).inner_paths.zip [[10, 20], [30]])) = .ok p' ∧
      p'.inner_paths = (Package.mk
            [PackageEntry.from_byte_array [97] [10, 20],
             PackageEntry.from_byte_array [98] [30]] [([97], 0), ([98], 1)]).inner_paths ∧
      (∀ pth, p'.content_by_path (fun _ => FsFile.absent) pth =
        (Package.mk
            [PackageEntry.from_byte_array [97] [10, 20],
             PackageEntry.from_byte_array [98] [30]]
            [([97], 0), ([98], 1)]).content_by_path (fun _ => FsFile.absent) pth) :=
  C1_dat_round_trip
    ⟨[PackageEntry.from_byte_array [97] [10, 20],
      PackageEntry.from_byte_array [98] [30]], [([97], 0), ([98], 1)]⟩
    (fun _ => FsFile.absent) [[10, 20], [30]]
    (by decide) (by decide) rfl (by decide)

end FtlDat
